import Mathlib

set_option maxHeartbeats 1000000

/-!
Shallow embedding of the InterviewIQ research pipeline (src/server/youtube.js,
src/server/research.js, src/server/auth.js, the express server file, and the
question generator module), together with proofs about the claims on its
specification.  External services (YouTube search, transcript provider, Gemini
model calls, web/Wikipedia fetches) are modelled as oracle functions supplied
in a `World` record; the JavaScript control flow is translated statement by
statement into pure structural recursion so that every definition evaluates by
kernel reduction.
-/

/-! ### String helpers

JavaScript string operations (`includes`, `toLowerCase`, `replace`,
`split(/\s+/)`, `trim`, `substring`) are modelled over `List Char` by
structural recursion, so that all definitions reduce in the kernel. -/

/-- `leadsList p l` is true iff `p` is an initial segment of `l`
(JS `startsWith` at the list level). -/
def leadsList (p l : List Char) : Bool :=
  match p, l with
  | [], _ => true
  | _ :: _, [] => false
  | a :: ps, b :: ls => a == b && leadsList ps ls

/-- `occursIn sub l` is true iff `sub` occurs contiguously inside `l`.
Mirrors JS `String.prototype.includes` (the empty string occurs in
everything). -/
def occursIn (sub : List Char) : List Char → Bool
  | [] => leadsList sub []
  | c :: rest => leadsList sub (c :: rest) || occursIn sub rest

/-- JS `s.includes(sub)`. -/
def strIncludes (s sub : String) : Bool :=
  occursIn sub.data s.data

/-- JS `s.toLowerCase()` (ASCII case folding, which is what all the guest-name
and title comparisons in the source rely on). -/
def lowerStr (s : String) : String :=
  ⟨s.data.map Char.toLower⟩

/-- Fueled global replace: one fuel unit per scan position; called with
`fuel = l.length`, which is always enough.  Mirrors JS
`s.replace(pat, rep)` with a global flag (the match is consumed and scanning
resumes after it). -/
def replaceFuel (pat rep : List Char) : Nat → List Char → List Char
  | _, [] => []
  | 0, l => l
  | fuel + 1, c :: rest =>
    if leadsList pat (c :: rest) then
      rep ++ replaceFuel pat rep fuel (List.drop (pat.length - 1) rest)
    else
      c :: replaceFuel pat rep fuel rest

/-- JS `s.replace(/pat/g, rep)` for a non-empty literal pattern. -/
def replaceStr (s pat rep : String) : String :=
  if pat.data.isEmpty then s else ⟨replaceFuel pat.data rep.data s.data.length s.data⟩

/-- The apostrophe character, built numerically. -/
def aposStr : String := ⟨[Char.ofNat 39]⟩

/-- HTML-entity decoding used throughout youtube.js: the five chained
`.replace` calls (`&#39; &amp; &quot; &lt; &gt;`).  The JS guard
`if (!str) return ''` is the identity on the modelled string inputs. -/
def decodeHtml (s : String) : String :=
  replaceStr (replaceStr (replaceStr (replaceStr (replaceStr s "&#39;" aposStr)
    "&amp;" "&") "&quot;" "\"") "&lt;" "<") "&gt;" ">"

/-- Maximal whitespace-free runs of a character list (accumulator-based).
`wordsAux l acc` processes `l` with the reversed current run `acc`. -/
def wordsAux : List Char → List Char → List (List Char)
  | [], acc => if acc.isEmpty then [] else [acc.reverse]
  | c :: cs, acc =>
    if c.isWhitespace then
      if acc.isEmpty then wordsAux cs [] else acc.reverse :: wordsAux cs []
    else
      wordsAux cs (c :: acc)

/-- JS `s.split(/\s+/)` with empty pieces dropped (the source always filters
the pieces by a positive length bound afterwards, so dropped empties are
unobservable). -/
def wordsOf (s : String) : List String :=
  (wordsAux s.data []).map fun l => (⟨l⟩ : String)

/-- `joinSep sep xs` = JS `xs.join(sep)`. -/
def joinSep (sep : String) : List String → String
  | [] => ""
  | [x] => x
  | x :: xs => x ++ sep ++ joinSep sep xs

/-- JS `.replace(/\s+/g, ' ').trim()`: collapse whitespace runs to single
spaces and trim the ends. -/
def collapseStr (s : String) : String :=
  joinSep " " (wordsOf s)

/-- JS `s.substring(0, n)` (code-point based in the model). -/
def takeStr (s : String) (n : Nat) : String :=
  ⟨s.data.take n⟩

/-- JS string truthiness: non-empty. -/
def jsTruthy (s : String) : Bool := !(s == "")

/-- JS `a || b` on strings. -/
def jsOr (a b : String) : String := if a == "" then b else a

/-! ### Data model -/

/-- Progress-event status (`status` field of the onProgress payloads). -/
inductive EStatus where
  | active
  | done
  | error
  deriving DecidableEq, Repr

/-- One progress event: `{step, status, message}`. -/
structure Event where
  step : String
  status : EStatus
  message : String
  deriving DecidableEq, Repr

/-- A YouTube search result item, as accumulated by `researchGuest`
(`videoId/title/description/channelTitle/publishedAt/thumbnail`; the
publish date is modelled as a numeric timestamp, the thumbnail is omitted as
it is never read by the orchestration logic). -/
structure Video where
  videoId : String
  title : String
  description : String
  channelTitle : String
  publishedAt : Nat
  deriving DecidableEq, Repr

/-- A transcript record or Gemini video analysis
(`{videoId, title, channelTitle, transcript, lang}` plus the optional
`source: 'gemini-video'` marker). -/
structure TRec where
  videoId : String
  title : String
  channelTitle : String
  transcript : String
  lang : String
  source : Option String
  deriving DecidableEq, Repr

/-- One caption segment returned by the transcript provider. -/
structure Seg where
  text : String
  lang : String
  deriving DecidableEq, Repr

/-- Result of `researchGuest`. -/
structure YTResult where
  guestName : String
  totalInterviewsFound : Nat
  interviews : List Video
  deriving DecidableEq, Repr

/-! ### youtube.js — researchGuest (first module copy, lines 31-149) -/

/-- The eight base search queries (youtube.js lines 35-44). -/
def baseQueries (g : String) : List String :=
  ["\"" ++ g ++ "\" interview",
   "\"" ++ g ++ "\" podcast",
   "\"" ++ g ++ "\" conversation",
   "\"" ++ g ++ "\" talk show",
   g ++ " interview full video",
   g ++ " podcast episode",
   "\"" ++ g ++ "\" इंटरव्यू",
   "\"" ++ g ++ "\" पॉडकास्ट"]

/-- The five extra Pro-mode queries (youtube.js lines 45-51). -/
def proExtraQueries (g : String) : List String :=
  ["\"" ++ g ++ "\" full episode",
   "\"" ++ g ++ "\" keynote speech",
   "\"" ++ g ++ "\" panel discussion",
   "\"" ++ g ++ "\" QnA",
   "\"" ++ g ++ "\" बातचीत"]

/-- `queries = isPro ? [...base, ...proExtra] : base`. -/
def queriesFor (g : String) (isPro : Bool) : List String :=
  if isPro then baseQueries g ++ proExtraQueries g else baseQueries g

/-- Quota-shaped YouTube error detection
(`msg.includes('quota') || msg.includes('Quota') || msg.includes('exceeded')`). -/
def isQuotaMsg (m : String) : Bool :=
  strIncludes m "quota" || strIncludes m "Quota" || strIncludes m "exceeded"

/-- Loop state of the query loop in `researchGuest`: the accumulated videos,
the `seenIds` set, the `quotaErrors` counter, plus a ghost trace `issued` of
the queries actually sent to the API. -/
structure SearchState where
  allVideos : List Video
  seenIds : List String
  quotaErrors : Nat
  issued : List String
  deriving Repr

/-- Fold one response page into the state, deduplicating by `videoId`
(youtube.js lines 84-98). -/
def addItems (st : SearchState) (items : List Video) : SearchState :=
  items.foldl
    (fun s item =>
      if item.videoId ∈ s.seenIds then s
      else { s with
               seenIds := s.seenIds ++ [item.videoId],
               allVideos := s.allVideos ++ [item] })
    st

/-- Whether the accumulated-video cap is hit (`Infinity` modelled as `none`). -/
def capReached (cap : Option Nat) (n : Nat) : Bool :=
  match cap with
  | some c => n ≥ c
  | none => false

/-- The query loop of `researchGuest` (youtube.js lines 63-108): stop on the
video cap or on `quotaErrors ≥ maxQuotaErrors`; otherwise issue the query and
either accumulate items, count a quota error, or skip a generic error. -/
def searchLoop (search : String → Nat → Except String (List Video))
    (maxResults : Nat) (cap : Option Nat) (maxQE : Nat) :
    List String → SearchState → SearchState
  | [], st => st
  | q :: rest, st =>
    if capReached cap st.allVideos.length then st
    else if st.quotaErrors ≥ maxQE then st
    else
      match search q maxResults with
      | .ok items =>
        searchLoop search maxResults cap maxQE rest
          (addItems { st with issued := st.issued ++ [q] } items)
      | .error msg =>
        if isQuotaMsg msg then
          searchLoop search maxResults cap maxQE rest
            { st with quotaErrors := st.quotaErrors + 1, issued := st.issued ++ [q] }
        else
          searchLoop search maxResults cap maxQE rest
            { st with issued := st.issued ++ [q] }

/-- The final state of the query loop for a given guest and mode
(`maxResults`, video cap and quota tolerance per youtube.js lines 52-55). -/
def searchFinal (g : String) (search : String → Nat → Except String (List Video))
    (isPro : Bool) : SearchState :=
  searchLoop search (if isPro then 50 else 20)
    (if isPro then none else some 100)
    (if isPro then (queriesFor g isPro).length else 3)
    (queriesFor g isPro) ⟨[], [], 0, []⟩

/-- The distinguished quota-exhaustion error (youtube.js line 112). -/
def quotaExhaustedMsg : String :=
  "QUOTA_EXHAUSTED: YouTube API daily quota exhausted. Resets at midnight Pacific Time (12:30 PM IST). Try again later or add a different API key in Settings."

/-- Missing-credential error of `createYoutubeClient` (youtube.js line 10). -/
def ytKeyMissingMsg : String :=
  "YouTube API Key is missing. Please configure it in Settings."

/-- `nameParts`: lower-cased whitespace split, keeping pieces longer than two
characters (youtube.js line 122). -/
def nameTokens (g : String) : List String :=
  (wordsOf (lowerStr g)).filter fun p => p.length > 2

/-- `firstName = nameParts[0] || ''`. -/
def firstTok (g : String) : String := (nameTokens g).headD ""

/-- `lastName = nameParts[nameParts.length - 1] || ''`. -/
def lastTok (g : String) : String := (nameTokens g).getLastD ""

/-- The decoded, lower-cased title used by the filter. -/
def titleLC (v : Video) : String := lowerStr (decodeHtml v.title)

/-- The decoded, lower-cased description used by the filter. -/
def descLC (v : Video) : String := lowerStr (decodeHtml v.description)

/-- The decoded, lower-cased channel title used by the filter. -/
def chanLC (v : Video) : String := lowerStr (decodeHtml v.channelTitle)

/-- `all = title + ' ' + desc + ' ' + channel` (youtube.js line 131). -/
def allLC (v : Video) : String :=
  titleLC v ++ " " ++ descLC v ++ " " ++ chanLC v

/-- The loosened relevance filter (youtube.js lines 127-138), including the
JS truthiness guards on `lastName`/`firstName` (an empty token makes the
guarded conditions falsy, but the unguarded channel test is still evaluated
with the empty string). -/
def relevanceKeep (g : String) (v : Video) : Bool :=
  strIncludes (allLC v) (lowerStr g)
    || (jsTruthy (lastTok g) && strIncludes (titleLC v) (lastTok g))
    || (jsTruthy (firstTok g) && jsTruthy (lastTok g)
          && strIncludes (allLC v) (firstTok g) && strIncludes (allLC v) (lastTok g))
    || (strIncludes (chanLC v) (lastTok g) || strIncludes (chanLC v) (firstTok g))

/-- Insertion step for the most-recent-first sort. -/
def insertDesc (v : Video) : List Video → List Video
  | [] => [v]
  | w :: ws => if w.publishedAt ≤ v.publishedAt then v :: w :: ws else w :: insertDesc v ws

/-- `relevant.sort((a, b) => new Date(b.publishedAt) - new Date(a.publishedAt))`:
sort by publish date, most recent first (modelled as insertion sort; only the
ordering contract matters downstream). -/
def sortByDateDesc : List Video → List Video
  | [] => []
  | v :: vs => insertDesc v (sortByDateDesc vs)

/-- `researchGuest(guestName, youtubeApiKey, isPro)` (youtube.js lines 31-149).
`keyOk` models the presence of an API key (`createYoutubeClient` throws
without one); `search` is the YouTube `search.list` oracle, taking the query
string and `maxResults`. -/
def researchGuest (g : String) (keyOk : Bool)
    (search : String → Nat → Except String (List Video)) (isPro : Bool) :
    Except String YTResult :=
  if !keyOk then .error ytKeyMissingMsg
  else if (searchFinal g search isPro).quotaErrors > 0
      && (searchFinal g search isPro).allVideos.length == 0 then
    .error quotaExhaustedMsg
  else
    .ok ⟨g,
      (sortByDateDesc ((searchFinal g search isPro).allVideos.filter (relevanceKeep g))).length,
      sortByDateDesc ((searchFinal g search isPro).allVideos.filter (relevanceKeep g))⟩

/-! ### youtube.js — fetchTranscripts (lines 154-225) -/

/-- The fixed fallback list of language codes (youtube.js line 170). -/
def transcriptLangs : List String :=
  ["en", "hi", "es", "pt", "fr", "de", "ja", "ko", "ar", "ru", "zh"]

/-- The language-fallback loop entered when the auto-detect fetch throws
(youtube.js lines 170-179): try each code; a throw or an empty segment list
moves on to the next code. -/
def tryLangs (fetch : String → Option String → Except String (List Seg))
    (vid : String) : List String → Option (List Seg × String)
  | [] => none
  | l :: ls =>
    match fetch vid (some l) with
    | .ok segs => if segs.length > 0 then some (segs, l) else tryLangs fetch vid ls
    | .error _ => tryLangs fetch vid ls

/-- Join the segment texts, entity-decode, collapse whitespace and trim
(youtube.js lines 183-192). -/
def transcriptTextOf (segs : List Seg) : String :=
  collapseStr (decodeHtml (joinSep " " (segs.map Seg.text)))

/-- The segment-retrieval part of the per-video loop (youtube.js lines
160-180): auto-detect first, the language-fallback loop on a throw. -/
def segResultOf (fetch : String → Option String → Except String (List Seg))
    (video : Video) : Option (List Seg × String) :=
  match fetch video.videoId none with
  | .ok segs =>
    if segs.length > 0 then some (segs, jsOr (segs.headD ⟨"", ""⟩).lang "auto")
    else none
  | .error _ => tryLangs fetch video.videoId transcriptLangs

/-- The acceptance gate (youtube.js lines 182-207): join/normalize the text,
require more than 100 characters, cap at 15000. -/
def acceptSegs (video : Video) : Option (List Seg × String) → Option TRec
  | none => none
  | some (segs, lang) =>
    if (transcriptTextOf segs).length > 100 then
      some ⟨video.videoId, video.title, video.channelTitle,
        takeStr (transcriptTextOf segs) 15000, lang, none⟩
    else none

/-- Per-video transcript retrieval: `some` record iff the video is accepted. -/
def fetchVideoTranscript (fetch : String → Option String → Except String (List Seg))
    (video : Video) : Option TRec :=
  acceptSegs video (segResultOf fetch video)

/-- Output of `fetchTranscripts`: the accepted transcripts, the failed videos
deferred to Gemini, and the per-video progress events. -/
structure FetchOut where
  transcripts : List TRec
  failedVideos : List Video
  events : List Event
  deriving Repr

/-- The per-video loop of `fetchTranscripts` (youtube.js lines 159-221):
each video lands in exactly one of `transcripts`/`failedVideos`, and a
progress event is emitted after every video. -/
def fetchTranscriptsGo (fetch : String → Option String → Except String (List Seg))
    (total : Nat) : List Video → Nat → Nat → FetchOut → FetchOut
  | [], _, _, out => out
  | v :: rest, i, succ, out =>
    match fetchVideoTranscript fetch v with
    | some t =>
      fetchTranscriptsGo fetch total rest (i + 1) (succ + 1)
        { out with
            transcripts := out.transcripts ++ [t],
            events := out.events ++
              [⟨"transcripts", .active,
                "Read " ++ toString (succ + 1) ++ " transcripts (" ++ toString (i + 1)
                  ++ "/" ++ toString total ++ " videos scanned)..."⟩] }
    | none =>
      fetchTranscriptsGo fetch total rest (i + 1) succ
        { out with
            failedVideos := out.failedVideos ++ [v],
            events := out.events ++
              [⟨"transcripts", .active,
                "Read " ++ toString succ ++ " transcripts (" ++ toString (i + 1)
                  ++ "/" ++ toString total ++ " videos scanned)..."⟩] }

/-- `fetchTranscripts(videos, onProgress)` (youtube.js lines 154-225). -/
def fetchTranscripts (fetch : String → Option String → Except String (List Seg))
    (videos : List Video) : FetchOut :=
  fetchTranscriptsGo fetch videos.length videos 0 0 ⟨[], [], []⟩

/-! ### youtube.js — Gemini video analysis (lines 230-384) -/

/-- Rate-limit detection used by `analyzeVideoWithGemini`
(`msg.includes('429') || msg.includes('quota')`). -/
def isRate429Msg (m : String) : Bool :=
  strIncludes m "429" || strIncludes m "quota"

/-- `analyzeVideoWithGemini(video, key)` (youtube.js lines 230-284): the model
call is the oracle `gen`; a thrown error or a short/empty analysis yields
`null`, otherwise a `TRec` with `lang: 'gemini-analyzed'` and
`source: 'gemini-video'`. -/
def analyzeVideoWithGemini (gen : Video → Except String String) (v : Video) :
    Option TRec :=
  match gen v with
  | .ok analysis =>
    if jsTruthy analysis ∧ analysis.length > 100 then
      some ⟨v.videoId, v.title, v.channelTitle, analysis, "gemini-analyzed", some "gemini-video"⟩
    else none
  | .error _ => none

/-- Split a list into the consecutive slices of three used by the Pro-mode
batch loop (`videosToAnalyze.slice(i, i + 3)` as `i` steps by 3). -/
def chunk3 {α : Type} : List α → List (List α)
  | [] => []
  | [a] => [[a]]
  | [a, b] => [[a, b]]
  | a :: b :: c :: rest => [a, b, c] :: chunk3 rest

/-- Accumulator of the Gemini analysis loops: analyzed records, the
`consecutiveFailures` counter, the emitted events, plus a ghost trace of the
indices at which an analysis call was issued. -/
structure GemAcc where
  results : List TRec
  cf : Nat
  events : List Event
  calls : List Nat
  deriving Repr

/-- Result of `analyzeVideosWithGemini`, with the ghost call trace and the
skip count. -/
structure GemOut where
  results : List TRec
  events : List Event
  calls : List Nat
  skipped : Nat
  deriving Repr

/-- Active progress event of the Free-mode loop (youtube.js lines 361-366). -/
def freeActiveEvt (i n skipped : Nat) : Event :=
  ⟨"gemini_video", .active,
    "AI watching video " ++ toString (i + 1) ++ " of " ++ toString n
      ++ (if skipped > 0 then " (" ++ toString skipped ++ " skipped)" else "") ++ "..."⟩

/-- Error event emitted when the Free-mode circuit breaker trips
(youtube.js lines 352-357). -/
def freeBreakEvt (resLen n : Nat) : Event :=
  ⟨"gemini_video", .error,
    "⚠️ Gemini API quota exhausted. " ++ toString resLen ++ " of " ++ toString n
      ++ " videos analyzed. Add your own API key for unlimited usage."⟩

/-- Active progress event of the Pro-mode batch loop (youtube.js lines
320-325). -/
def proActiveEvt (i n : Nat) : Event :=
  ⟨"gemini_video", .active,
    "AI watching videos " ++ toString (i + 1) ++ "–" ++ toString (min (i + 3) n)
      ++ " of " ++ toString n ++ " (Pro mode)..."⟩

/-- Error event emitted when the Pro-mode circuit breaker trips
(youtube.js lines 308-316). -/
def proBreakEvt (i resLen : Nat) : Event :=
  ⟨"gemini_video", .error,
    "⚠️ Gemini API quota exhausted after " ++ toString i ++ " videos. "
      ++ toString resLen ++ " analyzed. Enable billing for unlimited usage."⟩

/-- Free-mode sequential loop (youtube.js lines 348-380): break with an
error-status event once `consecutiveFailures ≥ 3`, otherwise emit an active
event, issue the call at index `i`, and update the counter. -/
def geminiFreeGo (analyze : Video → Option TRec) (n skipped : Nat) :
    List Video → Nat → GemAcc → GemAcc
  | [], _, acc => acc
  | v :: rest, i, acc =>
    if acc.cf ≥ 3 then
      { acc with events := acc.events ++ [freeBreakEvt acc.results.length n] }
    else
      match analyze v with
      | some r =>
        geminiFreeGo analyze n skipped rest (i + 1)
          { results := acc.results ++ [r], cf := 0,
            events := acc.events ++ [freeActiveEvt i n skipped],
            calls := acc.calls ++ [i] }
      | none =>
        geminiFreeGo analyze n skipped rest (i + 1)
          { results := acc.results, cf := acc.cf + 1,
            events := acc.events ++ [freeActiveEvt i n skipped],
            calls := acc.calls ++ [i] }

/-- Pro-mode batch loop (youtube.js lines 304-346) over the pre-sliced
batches: break with an error-status event once `consecutiveFailures ≥ 5`;
otherwise issue the whole batch, push the successes in order, and bump the
counter by the batch size only when the whole batch failed (any success
resets it to zero). -/
def geminiProGo (analyze : Video → Option TRec) (n : Nat) :
    List (List Video) → Nat → GemAcc → GemAcc
  | [], _, acc => acc
  | batch :: more, i, acc =>
    if acc.cf ≥ 5 then
      { acc with events := acc.events ++ [proBreakEvt i acc.results.length] }
    else
      geminiProGo analyze n more (i + batch.length)
        { results := acc.results ++ batch.filterMap analyze,
          cf := if batch.length - (batch.filterMap analyze).length == batch.length
                then acc.cf + (batch.length - (batch.filterMap analyze).length)
                else 0,
          events := acc.events ++ [proActiveEvt i n],
          calls := acc.calls ++ (List.range batch.length).map fun j => i + j }

/-- Package the final loop accumulator and the skip count. -/
def mkGemOut (acc : GemAcc) (skipped : Nat) : GemOut :=
  ⟨acc.results, acc.events, acc.calls, skipped⟩

/-- `analyzeVideosWithGemini(videos, onProgress, key, isPro)` (youtube.js
lines 289-384): Free caps the work list (`videosToAnalyze = videos.slice(0,
15)`, `skipped = videos.length - videosToAnalyze.length`) and runs the
sequential loop; Pro takes all videos (`slice(0, videos.length)`) in batches
of three. -/
def analyzeVideosWithGemini (gen : Video → Except String String)
    (videos : List Video) (isPro : Bool) : GemOut :=
  if isPro then
    mkGemOut
      (geminiProGo (analyzeVideoWithGemini gen) (videos.take videos.length).length
        (chunk3 (videos.take videos.length)) 0 ⟨[], 0, [], []⟩)
      (videos.length - (videos.take videos.length).length)
  else
    mkGemOut
      (geminiFreeGo (analyzeVideoWithGemini gen) (videos.take 15).length
        (videos.length - (videos.take 15).length) (videos.take 15) 0 ⟨[], 0, [], []⟩)
      (videos.length - (videos.take 15).length)

/-! ### research.js — deepResearch orchestrator (lines 17-218) -/

/-- Rate-limit detection in the deep-analysis retry loop (research.js line
128: `429`, `quota` or `rate` in the message). -/
def isRateLimitMsg (m : String) : Bool :=
  strIncludes m "429" || strIncludes m "quota" || strIncludes m "rate"

/-- A web-research dossier (`{profile, source, sources}`). -/
structure WebProfile where
  profile : String
  source : String
  sources : List (String × String)
  deriving DecidableEq, Repr

/-- Oracle record for one orchestration run: the outcome of every external
call the pipeline can make.  `transcriptCrash`/`geminiCrash` model the stages
throwing as a whole (the try/catch around them in `deepResearch`);
`web`/`wiki` are the settled results of the two parallel lookups (both
adapters swallow their own failures and return `null` / a profile). -/
structure World where
  nameGen : Except String String
  ytKeyOk : Bool
  search : String → Nat → Except String (List Video)
  fetchSeg : String → Option String → Except String (List Seg)
  transcriptCrash : Option String
  videoGen : Video → Except String String
  geminiCrash : Option String
  deepGen : Nat → Except String String
  metaGen : Except String String
  web : Option WebProfile
  wiki : Option String

/-- `correctGuestName(name, key)` (research.js lines 223-241): the model text
is trimmed; anything longer than 60 characters or containing a newline keeps
the original name.  A thrown model call propagates (and is caught by the
orchestrator). -/
def correctGuestName (name : String) (res : Except String String) :
    Except String String :=
  match res with
  | .error e => .error e
  | .ok t =>
    let corrected := ⟨(t.data.dropWhile Char.isWhitespace).reverse.dropWhile
      Char.isWhitespace |>.reverse⟩
    if corrected.length > 60 ∨ strIncludes corrected "\n" then .ok name
    else .ok corrected

/-- The search name actually used by the run: the corrected name on success,
the original on a name-check failure (research.js lines 28-43). -/
def searchNameOf (g : String) (w : World) : String :=
  match correctGuestName g w.nameGen with
  | .ok c => c
  | .error _ => g

/-- The name-check progress events (research.js lines 26-41). -/
def nameEventsOf (g : String) (w : World) : List Event :=
  ⟨"name_check", .active, "Verifying guest name..."⟩ ::
    match correctGuestName g w.nameGen with
    | .ok c =>
      if !(lowerStr c == lowerStr g) then
        [⟨"name_check", .done, "Corrected to: " ++ c⟩]
      else
        [⟨"name_check", .done, "Confirmed: " ++ c⟩]
    | .error _ => [⟨"name_check", .done, "Using: " ++ g⟩]

/-- The YouTube-search stage events and result (research.js lines 46-55):
failures are caught, logged as an error-status event, and the run continues
with the empty default result. -/
def ytStage (g : String) (w : World) (isPro : Bool) : YTResult × List Event :=
  match researchGuest (searchNameOf g w) w.ytKeyOk w.search isPro with
  | .ok r =>
    (r, [⟨"youtube", .done,
          "Found " ++ toString r.totalInterviewsFound ++ " relevant YouTube videos"⟩])
  | .error e =>
    (⟨"", 0, []⟩, [⟨"youtube", .error, "YouTube search failed: " ++ e⟩])

/-- Language display used in the transcripts-done message (research.js lines
69-72). -/
def langNameOf (l : String) : String :=
  if l == "en" then "English" else if l == "hi" then "Hindi"
  else if l == "es" then "Spanish" else if l == "fr" then "French"
  else if l == "de" then "German" else if l == "ja" then "Japanese"
  else if l == "ko" then "Korean" else if l == "pt" then "Portuguese"
  else if l == "ar" then "Arabic" else if l == "ru" then "Russian"
  else if l == "zh" then "Chinese" else l

/-- The transcripts-done message (research.js lines 74-77). -/
def transcriptsDoneMsg (transcripts : List TRec) (failedCount : Nat) : String :=
  let langs := ((transcripts.map TRec.lang).filter fun l =>
    jsTruthy l && !(l == "unknown") && !(l == "auto")).dedup
  let langDisplay := joinSep ", " (langs.map langNameOf)
  let langStr := if jsTruthy langDisplay then " (" ++ langDisplay ++ ")" else ""
  "Read " ++ toString transcripts.length ++ " transcripts" ++ langStr ++ " · "
    ++ toString failedCount ++ " videos need AI analysis"

/-- The transcript-fetch stage (research.js lines 57-83): skipped entirely on
zero videos; on a thrown stage the accumulators keep their initial values,
`failedVideos` becomes the whole video list, and an error-status event is
emitted; otherwise `fetchTranscripts` partitions the videos. -/
def transcriptStage (w : World) (interviews : List Video) :
    List TRec × List Video × List Event :=
  if interviews.length > 0 then
    match w.transcriptCrash with
    | some _ =>
      ([], interviews,
        [⟨"transcripts", .active,
          "Reading transcripts from all " ++ toString interviews.length
            ++ " videos (any language)..."⟩,
         ⟨"transcripts", .error,
          "Transcript fetching failed, AI will analyze videos directly"⟩])
    | none =>
      ((fetchTranscripts w.fetchSeg interviews).transcripts,
       (fetchTranscripts w.fetchSeg interviews).failedVideos,
       ⟨"transcripts", .active,
          "Reading transcripts from all " ++ toString interviews.length
            ++ " videos (any language)..."⟩ ::
          (fetchTranscripts w.fetchSeg interviews).events ++
          [⟨"transcripts", .done,
            transcriptsDoneMsg (fetchTranscripts w.fetchSeg interviews).transcripts
              (fetchTranscripts w.fetchSeg interviews).failedVideos.length⟩])
  else ([], [], [])

/-- The active event opening the model-watch stage (research.js lines
88-91). -/
def gemStageActiveEvt (n : Nat) (isPro : Bool) : Event :=
  ⟨"gemini_video", .active,
    "AI watching " ++ toString n ++ " videos without transcripts"
      ++ (if isPro then "" else " (max 15 in Free mode)") ++ "..."⟩

/-- The Gemini model-watch stage (research.js lines 85-103): skipped when no
video lacks a transcript; a thrown stage yields no analyses and an
error-status event; otherwise `analyzeVideosWithGemini` runs. -/
def geminiStage (w : World) (failedVideos : List Video) (isPro : Bool) :
    List TRec × List Nat × List Event :=
  if failedVideos.length > 0 then
    match w.geminiCrash with
    | some _ =>
      ([], [],
        [gemStageActiveEvt failedVideos.length isPro,
         ⟨"gemini_video", .error, "Some videos could not be analyzed"⟩])
    | none =>
      ((analyzeVideosWithGemini w.videoGen failedVideos isPro).results,
       (analyzeVideosWithGemini w.videoGen failedVideos isPro).calls,
       gemStageActiveEvt failedVideos.length isPro ::
         (analyzeVideosWithGemini w.videoGen failedVideos isPro).events ++
         [⟨"gemini_video", .done,
           "AI analyzed "
             ++ toString (analyzeVideosWithGemini w.videoGen failedVideos isPro).results.length
             ++ " videos directly (no transcripts needed)"⟩])
  else ([], [], [])

/-- Output of the deep-analysis retry loop: the narrative text, the events,
the number of model calls issued, and the backoff delays slept (ms). -/
structure DeepOut where
  text : String
  events : List Event
  calls : Nat
  delays : List Nat
  deriving Repr

/-- The retry progress event of the deep-analysis loop (research.js lines
130-133). -/
def deepRetryEvt (attempt : Nat) : Event :=
  ⟨"analyze_videos", .active,
    "Rate limit hit, retrying in " ++ toString (attempt * 5) ++ "s... (attempt "
      ++ toString (attempt + 1) ++ "/3)"⟩

/-- The terminal error event of the deep-analysis loop (research.js line
136). -/
def deepErrEvt : Event :=
  ⟨"analyze_videos", .error, "Deep analysis failed, trying metadata..."⟩

/-- One iteration of the retry loop around `deepAnalyzeTranscripts`
(research.js lines 118-139): success breaks with a done event; a
rate-limit-shaped error before attempt 3 emits a retry event and sleeps
`attempt × 5000` ms before the remaining attempts `rest`; any error at
attempt 3 emits the error event; a non-rate error before attempt 3 silently
falls through to the remaining attempts. -/
def deepStep (doneMsg : String) (attempt : Nat) (rest : DeepOut) :
    Except String String → DeepOut
  | .ok text => ⟨text, [⟨"analyze_videos", .done, doneMsg⟩], 1, []⟩
  | .error e =>
    if attempt < 3 ∧ isRateLimitMsg e = true then
      ⟨rest.text, deepRetryEvt attempt :: rest.events, rest.calls + 1,
        attempt * 5000 :: rest.delays⟩
    else if attempt = 3 then
      ⟨"", [deepErrEvt], 1, []⟩
    else
      ⟨rest.text, rest.events, rest.calls + 1, rest.delays⟩

/-- The retry loop, iterated over the attempt numbers `[1, 2, 3]`. -/
def deepGo (gen : Nat → Except String String) (doneMsg : String) :
    List Nat → DeepOut
  | [] => ⟨"", [], 0, []⟩
  | attempt :: rest => deepStep doneMsg attempt (deepGo gen doneMsg rest) (gen attempt)

/-- The deep-analysis stage (research.js lines 108-140): only entered when at
least one transcript or analysis exists. -/
def deepDoneMsg (nContent nT nG : Nat) : String :=
  "Deep-analyzed " ++ toString nContent ++ " videos (" ++ toString nT
    ++ " transcripts + " ++ toString nG ++ " AI-watched)"

def deepActiveEvt (nContent : Nat) : Event :=
  ⟨"analyze_videos", .active,
    "AI deep-reading " ++ toString nContent ++ " videos pin-to-pin..."⟩

def deepStage (w : World) (nContent nT nG : Nat) : DeepOut :=
  if nContent > 0 then
    ⟨(deepGo w.deepGen (deepDoneMsg nContent nT nG) [1, 2, 3]).text,
     deepActiveEvt nContent :: (deepGo w.deepGen (deepDoneMsg nContent nT nG) [1, 2, 3]).events,
     (deepGo w.deepGen (deepDoneMsg nContent nT nG) [1, 2, 3]).calls,
     (deepGo w.deepGen (deepDoneMsg nContent nT nG) [1, 2, 3]).delays⟩
  else ⟨"", [], 0, []⟩

/-- The metadata fallback (research.js lines 142-152): runs iff the deep
narrative is empty and at least one video was found.  Returns the final
`videoAnalysis`, the events, and whether the fallback call was issued. -/
def metaActiveEvt (n : Nat) : Event :=
  ⟨"analyze_videos", .active,
    "AI analyzing " ++ toString n ++ " video titles & patterns..."⟩

def fallbackStage (w : World) (deepText : String) (interviews : List Video) :
    String × List Event × Bool :=
  if !(jsTruthy deepText) ∧ interviews.length > 0 then
    match w.metaGen with
    | .ok t =>
      (t, [metaActiveEvt interviews.length,
           ⟨"analyze_videos", .done,
             "Analyzed patterns across " ++ toString interviews.length ++ " videos"⟩], true)
    | .error _ =>
      ("", [metaActiveEvt interviews.length,
            ⟨"analyze_videos", .error, "Video analysis encountered an issue"⟩], true)
  else (deepText, [], false)

/-- The parallel web + Wikipedia stage events (research.js lines 154-181);
both outcomes are settled in the world record. -/
def webStageEvents (w : World) : List Event :=
  let sourceCount := match w.web with
    | some wp => wp.sources.length
    | none => 0
  let wikiStr := match w.wiki with
    | some t => if jsTruthy t then " + Wikipedia" else ""
    | none => ""
  [⟨"web_search", .active, "Searching articles, blogs, news, Wikipedia, social media..."⟩,
   ⟨"web_search", .done, "Read " ++ toString sourceCount ++ " web sources" ++ wikiStr⟩]

/-- The combined narrative (research.js lines 186-195): video analysis, then
Wikipedia, then web intelligence, each only when truthy. -/
def combinedSummaryOf (videoAnalysis : String) (wiki : Option String)
    (web : Option WebProfile) : String :=
  (if jsTruthy videoAnalysis then
      "\n=== VIDEO INTERVIEW ANALYSIS ===\n" ++ videoAnalysis ++ "\n"
    else "")
  ++ (match wiki with
      | some t => if jsTruthy t then "\n=== WIKIPEDIA ===\n" ++ t ++ "\n" else ""
      | none => "")
  ++ (match web with
      | some wp =>
        if jsTruthy wp.profile then "\n=== WEB INTELLIGENCE ===\n" ++ wp.profile ++ "\n"
        else ""
      | none => "")

/-- The terminal research report (research.js lines 207-217). -/
structure Report where
  guestName : String
  originalQuery : String
  correctedName : Option String
  totalInterviewsFound : Nat
  transcriptsAnalyzed : Nat
  interviews : List Video
  topicsSummary : String
  videoAnalysis : String
  webProfile : Option WebProfile
  deriving Repr

/-- Ghost observations of one run, used to state invariants about its
internal stages. -/
structure Trace where
  isPro : Bool
  searchName : String
  interviews : List Video
  transcripts : List TRec
  geminiInput : List Video
  geminiAnalyzed : List TRec
  geminiCalls : List Nat
  deepText : String
  deepCalls : Nat
  deepDelays : List Nat
  metaRan : Bool
  deriving Repr

/-- Everything one `deepResearch` run produces: the report, the ordered
progress-event stream, and the ghost trace. -/
structure RunOut where
  report : Report
  events : List Event
  trace : Trace
  deriving Repr

/-- Per-user API-key object handed to `deepResearch` (a JS object whose
fields may be absent; `hasCustomKey` is read by the orchestrator but never
produced by the key lookup). -/
structure JSKeys where
  youtubeApiKey : Option String
  geminiApiKey : Option String
  hasCustomKey : Option Bool
  deriving DecidableEq, Repr

/-- `isPro = !!userKeys.hasCustomKey` (research.js line 20): an absent field
is falsy. -/
def isProOf (keys : JSKeys) : Bool := keys.hasCustomKey.getD false

/-- `deepResearch(guestName, onProgress, context, userKeys)` (research.js
lines 17-218).  Every stage failure is caught internally, so the function is
total: it always returns a report.  The `context` string only feeds prompt
text and does not influence control flow. -/
def deepResearch (g ctx : String) (userKeys : JSKeys) (w : World) : RunOut :=
  let _ := ctx
  let isPro := isProOf userKeys
  let searchName := searchNameOf g w
  let yt := ytStage g w isPro
  let ytResult := yt.1
  let ts := transcriptStage w ytResult.interviews
  let transcripts := ts.1
  let failedVideos := ts.2.1
  let gm := geminiStage w failedVideos isPro
  let geminiAnalyzed := gm.1
  let allAnalyzedCount := transcripts.length + geminiAnalyzed.length
  let dp := deepStage w allAnalyzedCount transcripts.length geminiAnalyzed.length
  let fb := fallbackStage w dp.text ytResult.interviews
  let videoAnalysis := fb.1
  let combinedSummary := combinedSummaryOf videoAnalysis w.wiki w.web
  let events : List Event :=
    ⟨"start", .active, "Starting deep research on " ++ g ++ "..."⟩ ::
      nameEventsOf g w ++
      (⟨"youtube", .active,
        "Searching YouTube for " ++ searchName ++ " interviews, podcasts, talks..."⟩ ::
        yt.2) ++
      ts.2.2 ++ gm.2.2 ++ dp.events ++ fb.2.1 ++ webStageEvents w ++
      [⟨"compile", .active, "Compiling comprehensive intelligence report..."⟩,
       ⟨"compile", .done, "Intelligence report ready"⟩,
       ⟨"complete", .done, "Research complete!"⟩]
  { report :=
      { guestName := searchName,
        originalQuery := g,
        correctedName := if !(searchName == g) then some searchName else none,
        totalInterviewsFound := ytResult.totalInterviewsFound,
        transcriptsAnalyzed := transcripts.length + geminiAnalyzed.length,
        interviews := ytResult.interviews,
        topicsSummary := combinedSummary,
        videoAnalysis := videoAnalysis,
        webProfile := w.web },
    events := events,
    trace :=
      { isPro := isPro,
        searchName := searchName,
        interviews := ytResult.interviews,
        transcripts := transcripts,
        geminiInput := failedVideos,
        geminiAnalyzed := geminiAnalyzed,
        geminiCalls := gm.2.1,
        deepText := dp.text,
        deepCalls := dp.calls,
        deepDelays := dp.delays,
        metaRan := fb.2.2 } }

/-! ### auth.js and the express server — key lookup and the research route -/

/-- The slice of a stored user record read by `getApiKeys` (both the Mongo
and the JSON-file branch read the same two optional fields). -/
structure UserRecord where
  youtubeApiKey : Option String
  geminiApiKey : Option String
  deriving DecidableEq, Repr

/-- `auth.getApiKeys(userId)` (auth.js lines 287-305): `null` for an unknown
user, otherwise an object with exactly `youtubeApiKey`/`geminiApiKey`
(defaulted to the empty string) — and no `hasCustomKey` field. -/
def getApiKeys (store : String → Option UserRecord) (userId : String) :
    Option JSKeys :=
  match store userId with
  | none => none
  | some u => some ⟨some (u.youtubeApiKey.getD ""), some (u.geminiApiKey.getD ""), none⟩

/-- `getUserKeys(userId) = (await auth.getApiKeys(userId)) || {}` (server file
lines 108-110): the empty object has every field absent. -/
def getUserKeys (store : String → Option UserRecord) (userId : String) : JSKeys :=
  (getApiKeys store userId).getD ⟨none, none, none⟩

/-- The POST `/api/research-guest` handler (server file lines 114-141):
reject an empty guest name, otherwise run `deepResearch` with the looked-up
keys.  `deepResearch` never throws in the model (all its stages catch), so
the handler always streams a result frame. -/
def researchGuestRoute (store : String → Option UserRecord)
    (userId guestName context : String) (w : World) : Except String RunOut :=
  if guestName == "" then .error "Guest name is required"
  else .ok (deepResearch guestName context (getUserKeys store userId) w)

/-! ### The question generator (`generateQuestions`) -/

/-- The ordered model ladder (`MODELS`). -/
def qMODELS : List String :=
  ["gemini-2.5-flash", "gemini-2.0-flash", "gemini-2.0-flash-lite"]

/-- The (model, attempt) pairs visited by the nested loops: two attempts per
model, in ladder order. -/
def ladderOf (ms : List String) : List (String × Nat) :=
  ms.flatMap fun m => [(m, 0), (m, 1)]

/-- The full attempt ladder of `generateQuestions`. -/
def attemptLadder : List (String × Nat) := ladderOf qMODELS

/-- The structured result of `generateQuestions`: either
`{success: true, data}` or `{success: false, error}`.  The parsed JSON
payload is opaque in the model. -/
structure GenResult where
  success : Bool
  data : Option String
  error : Option String
  deriving DecidableEq, Repr

/-- Loop state: the `lastError` message, the ghost trace of issued calls, and
the cooldown sleeps performed after rate-limit-shaped errors (ms). -/
structure QState where
  lastError : Option String
  callTrace : List (String × Nat)
  delays : List Nat
  deriving DecidableEq, Repr

/-- The failure value returned when every model/try is exhausted. -/
def allModelsFailedMsg (lastError : Option String) : String :=
  "All models failed. Last error: " ++ lastError.getD "Unknown error"
    ++ ". Gemini API quota may be exhausted — resets in ~1 minute for RPM limits, or at midnight PT for daily limits. You can add your own API key in Settings."

/-- The nested model/attempt loop of `generateQuestions`: each call either
succeeds (parse included) and returns immediately, or records the error,
sleeps 20 s on a rate-limit-shaped message, and moves on. -/
def genQGo (call : String → Nat → Except String String) :
    List (String × Nat) → QState → GenResult × QState
  | [], st => (⟨false, none, some (allModelsFailedMsg st.lastError)⟩, st)
  | (m, a) :: rest, st =>
    match call m a with
    | .ok d => (⟨true, some d, none⟩, { st with callTrace := st.callTrace ++ [(m, a)] })
    | .error e =>
      if isRate429Msg e then
        genQGo call rest ⟨some e, st.callTrace ++ [(m, a)], st.delays ++ [20000]⟩
      else
        genQGo call rest ⟨some e, st.callTrace ++ [(m, a)], st.delays⟩

/-- `generateQuestions({...})`: throws on a missing Gemini key, otherwise
runs the ladder loop; `call model attempt` is the oracle covering the model
call, fence cleaning and JSON parse (a parse failure is an error outcome). -/
def generateQuestions (keyOk : Bool) (call : String → Nat → Except String String) :
    Except String (GenResult × QState) :=
  if !keyOk then .error "Gemini API Key is missing. Please configure it in Settings."
  else .ok (genQGo call attemptLadder ⟨none, [], []⟩)

/-! ### Concrete inputs for counterexamples and witnesses -/

/-- A video whose title contains the exact guest name. -/
def vJane : Video := ⟨"vid1", "Jane Doe interview", "long talk", "Some Channel", 5⟩

/-- A second video, no transcript, still relevant. -/
def vJane2 : Video := ⟨"vid2", "A chat with Jane Doe", "", "Other Channel", 3⟩

/-- A candidate containing neither a name token of "Li Po" nor the full
name. -/
def vCooking : Video := ⟨"cid", "Cooking tips", "", "Bob", 0⟩

/-- Distinct placeholder videos for the Gemini loop scenarios. -/
def mkVid (i : Nat) : Video := ⟨"v" ++ toString i, "t" ++ toString i, "", "c", i⟩

/-- An analysis text long enough to pass the 100-character gate. -/
def longText : String := ⟨List.replicate 150 'a'⟩

/-- Analyzer oracle that always fails. -/
def alwaysFailGen : Video → Except String String := fun _ => .error "quota"

/-- Analyzer oracle succeeding only on `mkVid 0`. -/
def onlyV0Gen : Video → Except String String :=
  fun v => if v.videoId == "v0" then .ok longText else .error "err"

/-- Analyzer oracle that always succeeds. -/
def alwaysOkGen : Video → Except String String := fun _ => .ok longText

/-- Seven distinct videos (Pro breaker counterexample for C6). -/
def vids7 : List Video := (List.range 7).map mkVid

/-- Nine distinct videos (Pro breaker counterexample for C3). -/
def vids9 : List Video := (List.range 9).map mkVid

/-- Five distinct videos (Free breaker witness for C3). -/
def vids5 : List Video := (List.range 5).map mkVid

/-- Analyzer oracle for the C3 witness: succeeds on `v0`, fails on
`v1 v2 v3`, succeeds on `v4`. -/
def freeWitnessGen : Video → Except String String :=
  fun v => if v.videoId == "v1" ∨ v.videoId == "v2" ∨ v.videoId == "v3" then
    .error "quota" else .ok longText

/-- A search oracle whose every query fails with a quota-shaped message. -/
def quotaSearch : String → Nat → Except String (List Video) :=
  fun _ _ => .error "quotaExceeded"

/-- A search oracle that returns the two Jane videos on every query. -/
def janeSearch : String → Nat → Except String (List Video) :=
  fun _ _ => .ok [vJane, vJane2]

/-- A transcript oracle that always throws. -/
def noSeg : String → Option String → Except String (List Seg) :=
  fun _ _ => .error "no transcript"

/-- World for the C1 counterexample: every search query hits the quota, all
other services fail or are empty. -/
def quotaWorld : World :=
  { nameGen := .error "name model down",
    ytKeyOk := true,
    search := quotaSearch,
    fetchSeg := noSeg,
    transcriptCrash := none,
    videoGen := alwaysFailGen,
    geminiCrash := none,
    deepGen := fun _ => .error "x",
    metaGen := .error "x",
    web := none,
    wiki := none }

/-- World for the C10 witness: the search finds the Jane videos and the
transcript stage itself throws. -/
def crashWorld : World :=
  { nameGen := .error "name model down",
    ytKeyOk := true,
    search := janeSearch,
    fetchSeg := noSeg,
    transcriptCrash := some "boom",
    videoGen := alwaysOkGen,
    geminiCrash := none,
    deepGen := fun _ => .ok longText,
    metaGen := .ok longText,
    web := none,
    wiki := none }

/-- The empty key object (no custom keys stored). -/
def noKeys : JSKeys := ⟨none, none, none⟩

/-! ### Helper lemmas: substring search -/

theorem leadsList_iff (p l : List Char) :
    leadsList p l = true ↔ ∃ t, l = p ++ t := by
  induction p generalizing l with
  | nil => simp [leadsList]
  | cons a ps ih =>
    cases l with
    | nil => simp [leadsList]
    | cons b ls =>
      simp only [leadsList, Bool.and_eq_true, beq_iff_eq, ih, List.cons_append,
        List.cons.injEq]
      constructor
      · rintro ⟨rfl, t, rfl⟩
        exact ⟨t, rfl, rfl⟩
      · rintro ⟨t, rfl, rfl⟩
        exact ⟨rfl, t, rfl⟩

theorem occursIn_iff (sub l : List Char) :
    occursIn sub l = true ↔ ∃ a b, l = a ++ sub ++ b := by
  induction l with
  | nil =>
    simp only [occursIn, leadsList_iff]
    constructor
    · rintro ⟨t, ht⟩
      exact ⟨[], t, ht⟩
    · rintro ⟨a, b, h⟩
      rcases List.append_eq_nil.mp (List.append_eq_nil.mp h.symm).1 with ⟨rfl, rfl⟩
      exact ⟨b, h⟩
  | cons c rest ih =>
    simp only [occursIn, Bool.or_eq_true, leadsList_iff, ih]
    constructor
    · rintro (⟨t, ht⟩ | ⟨a, b, hab⟩)
      · exact ⟨[], t, by simpa using ht⟩
      · exact ⟨c :: a, b, by simp [hab]⟩
    · rintro ⟨a, b, hab⟩
      cases a with
      | nil => exact Or.inl ⟨b, by simpa using hab⟩
      | cons x a' =>
        simp only [List.cons_append, List.cons.injEq] at hab
        exact Or.inr ⟨a', b, hab.2⟩

theorem occursIn_append_left {t a : List Char} (b : List Char)
    (h : occursIn t a = true) : occursIn t (a ++ b) = true := by
  rcases (occursIn_iff t a).mp h with ⟨x, y, rfl⟩
  exact (occursIn_iff t _).mpr ⟨x, y ++ b, by simp⟩

theorem occursIn_append_right {t b : List Char} (a : List Char)
    (h : occursIn t b = true) : occursIn t (a ++ b) = true := by
  rcases (occursIn_iff t b).mp h with ⟨x, y, rfl⟩
  exact (occursIn_iff t _).mpr ⟨a ++ x, y, by simp⟩

theorem occursIn_trans {t u s : List Char} (h1 : occursIn t u = true)
    (h2 : occursIn u s = true) : occursIn t s = true := by
  rcases (occursIn_iff u s).mp h2 with ⟨a, b, rfl⟩
  rcases (occursIn_iff t u).mp h1 with ⟨x, y, rfl⟩
  exact (occursIn_iff t _).mpr ⟨a ++ x, y ++ b, by simp⟩

theorem strData_append (a b : String) : (a ++ b).data = a.data ++ b.data := rfl

theorem strIncludes_append_left {s t : String} (b : String)
    (h : strIncludes s t = true) : strIncludes (s ++ b) t = true := by
  simpa [strIncludes, strData_append] using occursIn_append_left b.data h

theorem strIncludes_append_right {s t : String} (a : String)
    (h : strIncludes s t = true) : strIncludes (a ++ s) t = true := by
  simpa [strIncludes, strData_append] using occursIn_append_right a.data h

theorem strIncludes_trans {s u t : String} (h1 : strIncludes u t = true)
    (h2 : strIncludes s u = true) : strIncludes s t = true :=
  occursIn_trans h1 h2

/-! ### Helper lemmas: whitespace tokens are substrings -/

theorem wordsAux_infix (cs : List Char) :
    ∀ acc t, t ∈ wordsAux cs acc → ∃ a b, acc.reverse ++ cs = a ++ t ++ b := by
  induction cs with
  | nil =>
    intro acc t ht
    simp only [wordsAux] at ht
    split at ht
    · simp at ht
    · rcases List.mem_singleton.mp ht with rfl
      exact ⟨[], [], by simp⟩
  | cons c cs ih =>
    intro acc t ht
    simp only [wordsAux] at ht
    split at ht
    · split at ht
      · rcases ih [] t ht with ⟨a, b, hab⟩
        have hcs : cs = a ++ t ++ b := by simpa using hab
        exact ⟨acc.reverse ++ [c] ++ a, b, by simp [hcs]⟩
      · rcases List.mem_cons.mp ht with rfl | hmem
        · exact ⟨[], c :: cs, by simp⟩
        · rcases ih [] t hmem with ⟨a, b, hab⟩
          have hcs : cs = a ++ t ++ b := by simpa using hab
          exact ⟨acc.reverse ++ [c] ++ a, b, by simp [hcs]⟩
    · rcases ih (c :: acc) t ht with ⟨a, b, hab⟩
      refine ⟨a, b, ?_⟩
      rw [List.reverse_cons] at hab
      simpa using hab

theorem wordsOf_occursIn {s t : String} (h : t ∈ wordsOf s) :
    occursIn t.data s.data = true := by
  simp only [wordsOf, List.mem_map] at h
  rcases h with ⟨l, hl, rfl⟩
  rcases wordsAux_infix s.data [] l hl with ⟨a, b, hab⟩
  simp only [List.reverse_nil, List.nil_append] at hab
  exact (occursIn_iff l s.data).mpr ⟨a, b, hab⟩

theorem nameTokens_occursIn {g t : String} (h : t ∈ nameTokens g) :
    occursIn t.data (lowerStr g).data = true :=
  wordsOf_occursIn (List.mem_of_mem_filter h)

theorem nameTokens_long {g t : String} (h : t ∈ nameTokens g) : t.length > 2 :=
  by simpa using List.of_mem_filter h

theorem firstTok_mem {g : String} (h : nameTokens g ≠ []) :
    firstTok g ∈ nameTokens g := by
  unfold firstTok
  cases hn : nameTokens g with
  | nil => exact absurd hn h
  | cons a l => simp

theorem lastTok_mem {g : String} (h : nameTokens g ≠ []) :
    lastTok g ∈ nameTokens g := by
  unfold lastTok
  cases hn : nameTokens g with
  | nil => exact absurd hn h
  | cons a l =>
    rw [List.getLastD_eq_getLast?, List.getLast?_eq_getLast (a :: l) (by simp),
      Option.getD_some]
    exact List.getLast_mem _

theorem lastTok_nonempty_iff {g : String} :
    lastTok g ≠ "" → nameTokens g ≠ [] := by
  intro h hn
  simp [lastTok, hn] at h

theorem firstTok_nonempty {g : String} (h : lastTok g ≠ "") : firstTok g ≠ "" := by
  have hmem := firstTok_mem (lastTok_nonempty_iff h)
  have := nameTokens_long hmem
  intro he
  rw [he] at this
  simp [String.length] at this

/-! ### Helper lemmas: the search loop -/

theorem addItems_cons (st : SearchState) (it : Video) (its : List Video) :
    addItems st (it :: its) =
      addItems
        (if it.videoId ∈ st.seenIds then st
         else { st with seenIds := st.seenIds ++ [it.videoId],
                        allVideos := st.allVideos ++ [it] }) its := by
  by_cases h : it.videoId ∈ st.seenIds <;> simp [addItems, h]

theorem addItems_qe (items : List Video) : ∀ st : SearchState,
    (addItems st items).quotaErrors = st.quotaErrors := by
  induction items with
  | nil => intro st; rfl
  | cons it its ih =>
    intro st
    rw [addItems_cons]
    split
    · exact ih st
    · rw [ih]

theorem addItems_issued (items : List Video) : ∀ st : SearchState,
    (addItems st items).issued = st.issued := by
  induction items with
  | nil => intro st; rfl
  | cons it its ih =>
    intro st
    rw [addItems_cons]
    split
    · exact ih st
    · rw [ih]

/-- Invariant of the query loop: accumulated ids are distinct, and every
accumulated id has been recorded in `seenIds`. -/
def SearchInv (st : SearchState) : Prop :=
  (st.allVideos.map Video.videoId).Nodup ∧
    ∀ v ∈ st.allVideos, v.videoId ∈ st.seenIds

theorem addItems_inv (items : List Video) : ∀ st : SearchState,
    SearchInv st → SearchInv (addItems st items) := by
  induction items with
  | nil => intro st h; exact h
  | cons item rest ih =>
    intro st h
    rw [addItems_cons]
    split
    · exact ih st h
    · rename_i hmem
      apply ih
      constructor
      · simp only [List.map_append, List.map_cons, List.map_nil]
        rw [List.nodup_append]
        refine ⟨h.1, List.nodup_singleton _, ?_⟩
        intro x hx
        simp only [List.mem_singleton]
        rcases List.mem_map.mp hx with ⟨v, hv, rfl⟩
        intro hEq
        exact hmem (hEq ▸ h.2 v hv)
      · intro v hv
        rcases List.mem_append.mp hv with hv | hv
        · exact List.mem_append_left _ (h.2 v hv)
        · rcases List.mem_singleton.mp hv with rfl
          exact List.mem_append_right _ (List.mem_singleton_self _)

theorem searchLoop_inv {search : String → Nat → Except String (List Video)}
    {mr : Nat} {cap : Option Nat} {mq : Nat} (qs : List String) :
    ∀ st : SearchState, SearchInv st → SearchInv (searchLoop search mr cap mq qs st) := by
  induction qs with
  | nil => intro st h; exact h
  | cons q rest ih =>
    intro st h
    rw [searchLoop]
    split
    · exact h
    split
    · exact h
    split
    · exact ih _ (addItems_inv _ _ h)
    split
    · exact ih _ h
    · exact ih _ h

theorem searchLoop_nodup (search : String → Nat → Except String (List Video))
    (mr : Nat) (cap : Option Nat) (mq : Nat) (qs : List String) :
    (((searchLoop search mr cap mq qs ⟨[], [], 0, []⟩).allVideos.map Video.videoId)).Nodup := by
  have hinit : SearchInv ⟨[], [], 0, []⟩ := ⟨by simp, by intro v hv; cases hv⟩
  exact (searchLoop_inv qs _ hinit).1

theorem searchFinal_nodup (g : String)
    (search : String → Nat → Except String (List Video)) (isPro : Bool) :
    (((searchFinal g search isPro).allVideos.map Video.videoId)).Nodup :=
  searchLoop_nodup _ _ _ _ _

theorem searchLoop_qe_mono {search : String → Nat → Except String (List Video)}
    {mr : Nat} {cap : Option Nat} {mq : Nat} (qs : List String) :
    ∀ st : SearchState, st.quotaErrors ≤ (searchLoop search mr cap mq qs st).quotaErrors := by
  induction qs with
  | nil => intro st; exact Nat.le_refl _
  | cons q rest ih =>
    intro st
    rw [searchLoop]
    split
    · exact Nat.le_refl _
    split
    · exact Nat.le_refl _
    split
    · rename_i items _
      have h1 := ih (addItems { st with issued := st.issued ++ [q] } items)
      rw [addItems_qe] at h1
      exact h1
    split
    · rename_i msg _ _
      have h1 := ih { st with quotaErrors := st.quotaErrors + 1, issued := st.issued ++ [q] }
      exact Nat.le_trans (Nat.le_succ _) h1
    · exact ih { st with issued := st.issued ++ [q] }

theorem searchLoop_qe_le {search : String → Nat → Except String (List Video)}
    {mr : Nat} {cap : Option Nat} {mq : Nat} (qs : List String) :
    ∀ st : SearchState, st.quotaErrors ≤ mq →
      (searchLoop search mr cap mq qs st).quotaErrors ≤ mq := by
  induction qs with
  | nil => intro st h; exact h
  | cons q rest ih =>
    intro st h
    rw [searchLoop]
    split
    · exact h
    split
    · exact h
    rename_i hqe
    have hlt : st.quotaErrors < mq := Nat.lt_of_not_le fun hle => hqe (by simpa using hle)
    split
    · rename_i items _
      apply ih
      rw [addItems_qe]
      exact Nat.le_of_lt hlt
    split
    · exact ih { st with quotaErrors := st.quotaErrors + 1, issued := st.issued ++ [q] } hlt
    · exact ih { st with issued := st.issued ++ [q] } (Nat.le_of_lt hlt)

theorem searchLoop_allquota {search : String → Nat → Except String (List Video)}
    {mr : Nat} {cap : Option Nat} {mq : Nat}
    (hq : ∀ q n, ∃ m, search q n = .error m ∧ isQuotaMsg m = true)
    (qs : List String) :
    ∀ st : SearchState, (searchLoop search mr cap mq qs st).allVideos = st.allVideos := by
  induction qs with
  | nil => intro st; rfl
  | cons q rest ih =>
    intro st
    rcases hq q mr with ⟨m, hm, hqm⟩
    rw [searchLoop]
    split
    · rfl
    split
    · rfl
    rw [hm]
    simp only [hqm, if_true]
    exact ih _

theorem searchLoop_issued {search : String → Nat → Except String (List Video)}
    {mr mq : Nat} (qs : List String) :
    ∀ st : SearchState, st.quotaErrors + qs.length ≤ mq →
      (searchLoop search mr none mq qs st).issued = st.issued ++ qs := by
  induction qs with
  | nil => intro st _; simp [searchLoop]
  | cons q rest ih =>
    intro st h
    rw [searchLoop]
    have hlt : st.quotaErrors < mq := by
      simp only [List.length_cons] at h
      omega
    rw [if_neg (by simp [capReached]), if_neg (by omega)]
    have hlen : ∀ st2 : SearchState, st2.quotaErrors + rest.length ≤ mq →
        (searchLoop search mr none mq rest st2).issued = st2.issued ++ rest := ih
    split
    · rename_i items _
      rw [hlen, addItems_issued]
      · simp
      · rw [addItems_qe]
        show st.quotaErrors + rest.length ≤ mq
        simp only [List.length_cons] at h
        omega
    split
    · rw [hlen]
      · simp
      · show st.quotaErrors + 1 + rest.length ≤ mq
        simp only [List.length_cons] at h
        omega
    · rw [hlen]
      · simp
      · show st.quotaErrors + rest.length ≤ mq
        simp only [List.length_cons] at h
        omega

/-! ### Helper lemmas: sort, filter, researchGuest -/

theorem insertDesc_perm (v : Video) : ∀ l : List Video, (insertDesc v l).Perm (v :: l) := by
  intro l
  induction l with
  | nil => exact List.Perm.refl _
  | cons w ws ih =>
    rw [insertDesc]
    split
    · exact List.Perm.refl _
    · exact List.Perm.trans (List.Perm.cons w ih) (List.Perm.swap v w ws)

theorem sortByDateDesc_perm : ∀ l : List Video, (sortByDateDesc l).Perm l := by
  intro l
  induction l with
  | nil => exact List.Perm.refl _
  | cons v vs ih =>
    rw [sortByDateDesc]
    exact List.Perm.trans (insertDesc_perm v (sortByDateDesc vs)) (List.Perm.cons v ih)

/-- Shared structural facts about a successful `researchGuest` call: the
reported total equals the list length, the ids are distinct, and every
returned video passed the relevance filter. -/
theorem researchGuest_ok {g : String} {keyOk : Bool}
    {search : String → Nat → Except String (List Video)} {isPro : Bool}
    {r : YTResult} (h : researchGuest g keyOk search isPro = .ok r) :
    r.totalInterviewsFound = r.interviews.length ∧
      (r.interviews.map Video.videoId).Nodup := by
  unfold researchGuest at h
  split at h
  · cases h
  · split at h
    · cases h
    · cases h
      refine ⟨rfl, ?_⟩
      have hperm := sortByDateDesc_perm
        (((searchFinal g search isPro).allVideos).filter (relevanceKeep g))
      have hmapPerm := hperm.map Video.videoId
      rw [List.Perm.nodup_iff hmapPerm]
      exact List.Nodup.sublist
        (List.Sublist.map Video.videoId (List.filter_sublist _))
        (searchFinal_nodup g search isPro)

/-! ### Helper lemmas: transcript partition -/

theorem acceptSegs_videoId {video : Video} {s : Option (List Seg × String)}
    {t : TRec} (h : acceptSegs video s = some t) : t.videoId = video.videoId := by
  cases s with
  | none => cases h
  | some p =>
    obtain ⟨segs, lang⟩ := p
    by_cases hc : (transcriptTextOf segs).length > 100
    · simp only [acceptSegs, if_pos hc] at h
      cases h
      rfl
    · simp only [acceptSegs, if_neg hc] at h
      cases h

theorem fetchVideoTranscript_videoId
    {fetch : String → Option String → Except String (List Seg)} {v : Video}
    {t : TRec} (h : fetchVideoTranscript fetch v = some t) :
    t.videoId = v.videoId :=
  acceptSegs_videoId h

theorem perm_insert_mid (T F V : List String) (x : String) :
    (T ++ (x :: (F ++ V))).Perm (T ++ (F ++ (x :: V))) :=
  List.Perm.append_left T (List.perm_middle).symm

theorem fetchTranscriptsGo_perm
    (fetch : String → Option String → Except String (List Seg)) (total : Nat)
    (vs : List Video) : ∀ (i succ : Nat) (out : FetchOut),
    ((fetchTranscriptsGo fetch total vs i succ out).transcripts.map TRec.videoId ++
      (fetchTranscriptsGo fetch total vs i succ out).failedVideos.map Video.videoId).Perm
      ((out.transcripts.map TRec.videoId ++ out.failedVideos.map Video.videoId) ++
        vs.map Video.videoId) := by
  induction vs with
  | nil => intro i succ out; simp [fetchTranscriptsGo]
  | cons v rest ih =>
    intro i succ out
    rw [fetchTranscriptsGo]
    cases hfv : fetchVideoTranscript fetch v with
    | some t =>
      have htid : t.videoId = v.videoId := fetchVideoTranscript_videoId hfv
      refine List.Perm.trans (ih (i + 1) (succ + 1) _) ?_
      simp only [List.map_append, List.map_cons, List.map_nil, htid,
        List.append_assoc, List.singleton_append, List.nil_append]
      exact perm_insert_mid _ _ _ _
    | none =>
      refine List.Perm.trans (ih (i + 1) succ _) ?_
      simp only [List.map_append, List.map_cons, List.map_nil,
        List.append_assoc, List.singleton_append, List.nil_append]
      exact List.Perm.refl _

theorem fetchTranscripts_perm
    (fetch : String → Option String → Except String (List Seg))
    (videos : List Video) :
    ((fetchTranscripts fetch videos).transcripts.map TRec.videoId ++
      (fetchTranscripts fetch videos).failedVideos.map Video.videoId).Perm
      (videos.map Video.videoId) := by
  have := fetchTranscriptsGo_perm fetch videos.length videos 0 0 ⟨[], [], []⟩
  simpa [fetchTranscripts] using this

theorem fetchTranscripts_counts
    (fetch : String → Option String → Except String (List Seg))
    (videos : List Video) :
    (fetchTranscripts fetch videos).transcripts.length +
      (fetchTranscripts fetch videos).failedVideos.length = videos.length := by
  have h := (fetchTranscripts_perm fetch videos).length_eq
  simpa using h

theorem fetchTranscripts_disjoint
    (fetch : String → Option String → Except String (List Seg))
    (videos : List Video) (hnd : (videos.map Video.videoId).Nodup) :
    ∀ id, id ∈ (fetchTranscripts fetch videos).transcripts.map TRec.videoId →
      id ∉ (fetchTranscripts fetch videos).failedVideos.map Video.videoId := by
  have hperm := fetchTranscripts_perm fetch videos
  have hnodup : ((fetchTranscripts fetch videos).transcripts.map TRec.videoId ++
      (fetchTranscripts fetch videos).failedVideos.map Video.videoId).Nodup :=
    (List.Perm.nodup_iff hperm).mpr hnd
  intro id hmem
  exact (List.disjoint_of_nodup_append hnodup) hmem

/-! ### Helper lemmas: the Gemini analysis loops -/

theorem analyzeVideoWithGemini_videoId {gen : Video → Except String String}
    {v : Video} {t : TRec} (h : analyzeVideoWithGemini gen v = some t) :
    t.videoId = v.videoId := by
  cases hg : gen v with
  | ok s =>
    simp only [analyzeVideoWithGemini, hg] at h
    split at h
    · cases h; rfl
    · cases h
  | error e =>
    simp only [analyzeVideoWithGemini, hg] at h
    exact Option.noConfusion h

theorem chunk3_flatten {α : Type} : ∀ l : List α, (chunk3 l).flatten = l
  | [] => rfl
  | [_] => rfl
  | [_, _] => rfl
  | a :: b :: c :: rest => by
    simp only [chunk3, List.flatten_cons, chunk3_flatten rest]
    rfl

theorem chunk3_ne_nil {α : Type} {l : List α} (h : l ≠ []) : chunk3 l ≠ [] := by
  match l with
  | [] => exact absurd rfl h
  | [_] => simp [chunk3]
  | [_, _] => simp [chunk3]
  | _ :: _ :: _ :: _ => simp [chunk3]

theorem filterMap_allSome_length {α β : Type} (f : α → Option β) :
    ∀ l : List α, (∀ v ∈ l, (f v).isSome) → (l.filterMap f).length = l.length := by
  intro l
  induction l with
  | nil => intro _; rfl
  | cons a rest ih =>
    intro h
    rcases Option.isSome_iff_exists.mp (h a (List.mem_cons_self a rest)) with ⟨b, hb⟩
    rw [List.filterMap_cons, hb]
    simp only [List.length_cons]
    rw [ih fun v hv => h v (List.mem_cons_of_mem a hv)]

theorem geminiFreeGo_sub (analyze : Video → Option TRec) (n k : Nat)
    (hA : ∀ v t, analyze v = some t → t.videoId = v.videoId) :
    ∀ (l : List Video) (i : Nat) (acc : GemAcc),
      (geminiFreeGo analyze n k l i acc).results.length ≤ acc.results.length + l.length ∧
      (geminiFreeGo analyze n k l i acc).calls.length ≤ acc.calls.length + l.length ∧
      ∀ t ∈ (geminiFreeGo analyze n k l i acc).results,
        t ∈ acc.results ∨ t.videoId ∈ l.map Video.videoId := by
  intro l
  induction l with
  | nil =>
    intro i acc
    exact ⟨Nat.le_add_right _ _, Nat.le_add_right _ _, fun t ht => Or.inl ht⟩
  | cons v rest ih =>
    intro i acc
    rw [geminiFreeGo]
    split
    · exact ⟨by simp, by simp, fun t ht => Or.inl ht⟩
    · cases ha : analyze v with
      | some r =>
        obtain ⟨hlen, hcalls, hmem⟩ := ih (i + 1)
          { results := acc.results ++ [r], cf := 0,
            events := acc.events ++ [freeActiveEvt i n k],
            calls := acc.calls ++ [i] }
        refine ⟨?_, ?_, ?_⟩
        · simp only [List.length_append, List.length_cons, List.length_nil] at hlen ⊢
          omega
        · simp only [List.length_append, List.length_cons, List.length_nil] at hcalls ⊢
          omega
        · intro t ht
          rcases hmem t ht with hin | hin
          · rcases List.mem_append.mp hin with hin | hin
            · exact Or.inl hin
            · rcases List.mem_singleton.mp hin with rfl
              refine Or.inr ?_
              rw [hA v t ha]
              simp
          · exact Or.inr (by simpa using Or.inr (by simpa using hin))
      | none =>
        obtain ⟨hlen, hcalls, hmem⟩ := ih (i + 1)
          { results := acc.results, cf := acc.cf + 1,
            events := acc.events ++ [freeActiveEvt i n k],
            calls := acc.calls ++ [i] }
        refine ⟨?_, ?_, ?_⟩
        · simp only [List.length_cons] at hlen ⊢
          omega
        · simp only [List.length_append, List.length_cons, List.length_nil] at hcalls ⊢
          omega
        · intro t ht
          rcases hmem t ht with hin | hin
          · exact Or.inl hin
          · exact Or.inr (by simpa using Or.inr (by simpa using hin))

theorem geminiProGo_sub (analyze : Video → Option TRec) (n : Nat)
    (hA : ∀ v t, analyze v = some t → t.videoId = v.videoId) :
    ∀ (batches : List (List Video)) (i : Nat) (acc : GemAcc),
      (geminiProGo analyze n batches i acc).results.length ≤
        acc.results.length + batches.flatten.length ∧
      ∀ t ∈ (geminiProGo analyze n batches i acc).results,
        t ∈ acc.results ∨ t.videoId ∈ batches.flatten.map Video.videoId := by
  intro batches
  induction batches with
  | nil =>
    intro i acc
    exact ⟨Nat.le_add_right _ _, fun t ht => Or.inl ht⟩
  | cons batch more ih =>
    intro i acc
    rw [geminiProGo]
    split
    · exact ⟨by simp, fun t ht => Or.inl ht⟩
    · obtain ⟨hlen, hmem⟩ := ih (i + batch.length)
        { results := acc.results ++ batch.filterMap analyze,
          cf := if batch.length - (batch.filterMap analyze).length == batch.length
                then acc.cf + (batch.length - (batch.filterMap analyze).length)
                else 0,
          events := acc.events ++ [proActiveEvt i n],
          calls := acc.calls ++ (List.range batch.length).map fun j => i + j }
      refine ⟨?_, ?_⟩
      · have hfm : (batch.filterMap analyze).length ≤ batch.length :=
          List.length_filterMap_le _ _
        simp only [List.length_append, List.flatten_cons] at hlen ⊢
        omega
      · intro t ht
        rcases hmem t ht with hin | hin
        · rcases List.mem_append.mp hin with hin | hin
          · exact Or.inl hin
          · rcases List.mem_filterMap.mp hin with ⟨v, hv, hvt⟩
            refine Or.inr ?_
            simp only [List.flatten_cons, List.map_append, List.mem_append]
            refine Or.inl ?_
            rw [hA v t hvt]
            exact List.mem_map_of_mem Video.videoId hv
        · refine Or.inr ?_
          simp only [List.flatten_cons, List.map_append, List.mem_append]
          exact Or.inr hin

theorem analyzeVideosWithGemini_sub (gen : Video → Except String String)
    (videos : List Video) (isPro : Bool) :
    (analyzeVideosWithGemini gen videos isPro).results.length ≤ videos.length ∧
    ∀ t ∈ (analyzeVideosWithGemini gen videos isPro).results,
      t.videoId ∈ videos.map Video.videoId := by
  have hA : ∀ v t, analyzeVideoWithGemini gen v = some t → t.videoId = v.videoId :=
    fun v t h => analyzeVideoWithGemini_videoId h
  unfold analyzeVideosWithGemini
  split
  · obtain ⟨hlen, hmem⟩ := geminiProGo_sub (analyzeVideoWithGemini gen)
      (videos.take videos.length).length hA
      (chunk3 (videos.take videos.length)) 0 ⟨[], 0, [], []⟩
    rw [chunk3_flatten, List.take_length] at hlen hmem
    constructor
    · simpa [mkGemOut] using hlen
    · intro t ht
      rcases hmem t (by simpa [mkGemOut] using ht) with hin | hin
      · cases hin
      · exact hin
  · obtain ⟨hlen, _, hmem⟩ := geminiFreeGo_sub (analyzeVideoWithGemini gen)
      (videos.take 15).length (videos.length - (videos.take 15).length) hA
      (videos.take 15) 0 ⟨[], 0, [], []⟩
    constructor
    · have h1 := hlen
      simp only [List.length_nil, Nat.zero_add] at h1
      exact Nat.le_trans h1 (by simp)
    · intro t ht
      rcases hmem t (by simpa [mkGemOut] using ht) with hin | hin
      · cases hin
      · exact List.Sublist.mem hin
          (List.Sublist.map Video.videoId (List.take_sublist 15 videos))

/-! ### Helper lemmas: circuit-breaker scenarios -/

theorem range_map_shift (i m : Nat) :
    i :: (List.range m).map (fun j => i + 1 + j) = (List.range (m + 1)).map fun j => i + j := by
  rw [List.range_succ_eq_map, List.map_cons, List.map_map]
  refine congrArg₂ _ (by omega) ?_
  refine List.map_congr_left ?_
  intro j _
  simp only [Function.comp_apply, Nat.succ_eq_add_one]
  omega

theorem range_add_map (i a b : Nat) :
    (List.range a).map (fun j => i + j) ++ (List.range b).map (fun j => i + a + j)
      = (List.range (a + b)).map fun j => i + j := by
  rw [List.range_add, List.map_append, List.map_map]
  refine congrArg₂ _ rfl ?_
  refine List.map_congr_left ?_
  intro j _
  simp only [Function.comp_apply]
  omega

theorem geminiFreeGo_ok_prefix (analyze : Video → Option TRec) (n k : Nat)
    (l₁ : List Video) (hs : ∀ v ∈ l₁, (analyze v).isSome) :
    ∀ (l₂ : List Video) (i : Nat) (res : List TRec) (ev : List Event) (cs : List Nat),
    ∃ res2 ev2, geminiFreeGo analyze n k (l₁ ++ l₂) i ⟨res, 0, ev, cs⟩ =
      geminiFreeGo analyze n k l₂ (i + l₁.length)
        ⟨res2, 0, ev2, cs ++ (List.range l₁.length).map fun j => i + j⟩ := by
  induction l₁ with
  | nil =>
    intro l₂ i res ev cs
    exact ⟨res, ev, by simp⟩
  | cons v l₁ ih =>
    intro l₂ i res ev cs
    rcases Option.isSome_iff_exists.mp (hs v (List.mem_cons_self v l₁)) with ⟨r, hr⟩
    have hstep : geminiFreeGo analyze n k ((v :: l₁) ++ l₂) i ⟨res, 0, ev, cs⟩ =
        geminiFreeGo analyze n k (l₁ ++ l₂) (i + 1)
          ⟨res ++ [r], 0, ev ++ [freeActiveEvt i n k], cs ++ [i]⟩ := by
      rw [List.cons_append, geminiFreeGo, hr]
      norm_num
    obtain ⟨res2, ev2, heq⟩ :=
      ih (fun v hv => hs v (List.mem_cons_of_mem _ hv)) l₂ (i + 1) (res ++ [r])
        (ev ++ [freeActiveEvt i n k]) (cs ++ [i])
    refine ⟨res2, ev2, ?_⟩
    rw [hstep, heq]
    have h1 : i + 1 + l₁.length = i + (v :: l₁).length := by
      simp only [List.length_cons]; omega
    have h2 : (cs ++ [i]) ++ ((List.range l₁.length).map fun j => i + 1 + j)
        = cs ++ ((List.range ((v :: l₁).length)).map fun j => i + j) := by
      rw [List.append_assoc, List.singleton_append, range_map_shift]
      simp only [List.length_cons]
    rw [h1, h2]

theorem geminiFreeGo_three_fail (analyze : Video → Option TRec) (n k : Nat)
    {f1 f2 f3 : Video} (w : Video) (ws : List Video)
    (h1 : analyze f1 = none) (h2 : analyze f2 = none) (h3 : analyze f3 = none)
    (i : Nat) (res : List TRec) (ev : List Event) (cs : List Nat) :
    geminiFreeGo analyze n k (f1 :: f2 :: f3 :: w :: ws) i ⟨res, 0, ev, cs⟩ =
      ⟨res, 3,
       ev ++ [freeActiveEvt i n k] ++ [freeActiveEvt (i + 1) n k]
          ++ [freeActiveEvt (i + 2) n k] ++ [freeBreakEvt res.length n],
       cs ++ [i] ++ [i + 1] ++ [i + 2]⟩ := by
  rw [geminiFreeGo, h1]
  norm_num
  rw [geminiFreeGo, h2]
  norm_num
  rw [geminiFreeGo, h3]
  norm_num
  rw [geminiFreeGo]
  norm_num

theorem geminiProGo_six_fail (analyze : Video → Option TRec) (n : Nat)
    {f1 f2 f3 f4 f5 f6 : Video} (b : List Video) (bs : List (List Video))
    (h1 : analyze f1 = none) (h2 : analyze f2 = none) (h3 : analyze f3 = none)
    (h4 : analyze f4 = none) (h5 : analyze f5 = none) (h6 : analyze f6 = none)
    (i : Nat) (res : List TRec) (ev : List Event) (cs : List Nat) :
    geminiProGo analyze n ([f1, f2, f3] :: [f4, f5, f6] :: b :: bs) i ⟨res, 0, ev, cs⟩ =
      ⟨res, 6,
       ev ++ [proActiveEvt i n] ++ [proActiveEvt (i + 3) n]
          ++ [proBreakEvt (i + 3 + 3) res.length],
       cs ++ ((List.range 3).map fun j => i + j)
          ++ ((List.range 3).map fun j => i + 3 + j)⟩ := by
  rw [geminiProGo]
  norm_num [h1, h2, h3, List.filterMap_cons]
  rw [geminiProGo]
  norm_num [h4, h5, h6, List.filterMap_cons]
  rw [geminiProGo]
  norm_num

theorem geminiProGo_allOk (analyze : Video → Option TRec) (n : Nat) :
    ∀ (batches : List (List Video)), (∀ v ∈ batches.flatten, (analyze v).isSome) →
    ∀ (i : Nat) (res : List TRec) (ev : List Event) (cs : List Nat),
    ∃ ev2, geminiProGo analyze n batches i ⟨res, 0, ev, cs⟩ =
      ⟨res ++ batches.flatten.filterMap analyze, 0, ev2,
        cs ++ (List.range batches.flatten.length).map fun j => i + j⟩ := by
  intro batches
  induction batches with
  | nil =>
    intro _ i res ev cs
    exact ⟨ev, by simp [geminiProGo]⟩
  | cons batch more ih =>
    intro hs i res ev cs
    have hbatch : ∀ v ∈ batch, (analyze v).isSome := fun v hv =>
      hs v (by rw [List.flatten_cons]; exact List.mem_append.mpr (Or.inl hv))
    have hflen : (batch.filterMap analyze).length = batch.length :=
      filterMap_allSome_length analyze batch hbatch
    have hcf0 : batch.length - (batch.filterMap analyze).length = 0 := by omega
    have hstep : geminiProGo analyze n (batch :: more) i ⟨res, 0, ev, cs⟩ =
        geminiProGo analyze n more (i + batch.length)
          ⟨res ++ batch.filterMap analyze, 0, ev ++ [proActiveEvt i n],
            cs ++ (List.range batch.length).map fun j => i + j⟩ := by
      rw [geminiProGo]
      norm_num [hcf0]
    obtain ⟨ev2, heq⟩ := ih (fun v hv => hs v
      (by rw [List.flatten_cons]; exact List.mem_append.mpr (Or.inr hv)))
      (i + batch.length) (res ++ batch.filterMap analyze)
      (ev ++ [proActiveEvt i n]) (cs ++ (List.range batch.length).map fun j => i + j)
    refine ⟨ev2, ?_⟩
    rw [hstep, heq]
    have h1 : (res ++ batch.filterMap analyze) ++ more.flatten.filterMap analyze
        = res ++ (batch :: more).flatten.filterMap analyze := by
      rw [List.flatten_cons, List.filterMap_append, List.append_assoc]
    have h2 : (cs ++ (List.range batch.length).map fun j => i + j)
          ++ ((List.range more.flatten.length).map fun j => i + batch.length + j)
        = cs ++ (List.range ((batch :: more).flatten.length)).map fun j => i + j := by
      rw [List.append_assoc, range_add_map]
      simp [List.flatten_cons]
    rw [h1, h2]

/-! ### Helper lemmas: the question-generator ladder -/

theorem genQGo_allFail (call : String → Nat → Except String String)
    (p : String × Nat) (e : String) (hp : call p.1 p.2 = .error e) :
    ∀ (l : List (String × Nat)) (st : QState),
    (∀ q ∈ l, ∃ x, call q.1 q.2 = .error x) →
    (genQGo call (l ++ [p]) st).1 = ⟨false, none, some (allModelsFailedMsg (some e))⟩ ∧
    (genQGo call (l ++ [p]) st).2.callTrace = st.callTrace ++ l ++ [p] := by
  intro l
  induction l with
  | nil =>
    intro st _
    obtain ⟨m, a⟩ := p
    simp only at hp
    simp only [List.nil_append, genQGo, hp]
    split <;> simp [genQGo]
  | cons q l ih =>
    intro st hall
    rcases hall q (List.mem_cons_self q l) with ⟨x, hx⟩
    obtain ⟨m, a⟩ := q
    simp only at hx
    rw [List.cons_append]
    simp only [genQGo, hx]
    have hall2 : ∀ r ∈ l, ∃ x, call r.1 r.2 = .error x :=
      fun r hr => hall r (List.mem_cons_of_mem _ hr)
    split
    · obtain ⟨hres, htr⟩ :=
        ih ⟨some x, st.callTrace ++ [(m, a)], st.delays ++ [20000]⟩ hall2
      refine ⟨hres, ?_⟩
      rw [htr]
      simp
    · obtain ⟨hres, htr⟩ := ih ⟨some x, st.callTrace ++ [(m, a)], st.delays⟩ hall2
      refine ⟨hres, ?_⟩
      rw [htr]
      simp

theorem genQGo_firstOk (call : String → Nat → Except String String)
    (p : String × Nat) (d : String) (hp : call p.1 p.2 = .ok d) :
    ∀ (l l₂ : List (String × Nat)) (st : QState),
    (∀ q ∈ l, ∃ x, call q.1 q.2 = .error x) →
    (genQGo call (l ++ p :: l₂) st).1 = ⟨true, some d, none⟩ ∧
    (genQGo call (l ++ p :: l₂) st).2.callTrace = st.callTrace ++ l ++ [p] := by
  intro l
  induction l with
  | nil =>
    intro l₂ st _
    obtain ⟨m, a⟩ := p
    simp only at hp
    simp only [List.nil_append, genQGo, hp]
    simp
  | cons q l ih =>
    intro l₂ st hall
    rcases hall q (List.mem_cons_self q l) with ⟨x, hx⟩
    obtain ⟨m, a⟩ := q
    simp only at hx
    rw [List.cons_append]
    simp only [genQGo, hx]
    have hall2 : ∀ r ∈ l, ∃ x, call r.1 r.2 = .error x :=
      fun r hr => hall r (List.mem_cons_of_mem _ hr)
    split
    · obtain ⟨hres, htr⟩ :=
        ih l₂ ⟨some x, st.callTrace ++ [(m, a)], st.delays ++ [20000]⟩ hall2
      refine ⟨hres, ?_⟩
      rw [htr]
      simp
    · obtain ⟨hres, htr⟩ := ih l₂ ⟨some x, st.callTrace ++ [(m, a)], st.delays⟩ hall2
      refine ⟨hres, ?_⟩
      rw [htr]
      simp

theorem genQGo_delays (call : String → Nat → Except String String) :
    ∀ (l : List (String × Nat)) (st : QState),
    (∀ x ∈ st.delays, x = 20000) →
    ∀ x ∈ (genQGo call l st).2.delays, x = 20000 := by
  intro l
  induction l with
  | nil => intro st h; exact h
  | cons q l ih =>
    intro st h
    obtain ⟨m, a⟩ := q
    cases hc : call m a with
    | ok d =>
      simp only [genQGo, hc]
      exact h
    | error e =>
      simp only [genQGo, hc]
      split
      · refine ih ⟨some e, st.callTrace ++ [(m, a)], st.delays ++ [20000]⟩ ?_
        intro x hx
        rcases List.mem_append.mp hx with hx | hx
        · exact h x hx
        · exact List.mem_singleton.mp hx
      · exact ih ⟨some e, st.callTrace ++ [(m, a)], st.delays⟩ h

/-! ### Helper lemmas: the deep-analysis retry loop and fallback -/

theorem jsTruthy_iff (s : String) : jsTruthy s = true ↔ s ≠ "" := by
  simp [jsTruthy]

theorem deepGo_calls_le (gen : Nat → Except String String) (dm : String) :
    ∀ l : List Nat, (deepGo gen dm l).calls ≤ l.length := by
  intro l
  induction l with
  | nil => simp [deepGo]
  | cons attempt rest ih =>
    rw [deepGo]
    cases hg : gen attempt with
    | ok t => simp [deepStep]
    | error e =>
      simp only [deepStep]
      split
      · simpa using Nat.succ_le_succ ih
      · split
        · simp
        · simpa using Nat.succ_le_succ ih

theorem deepGo_first_ok (gen : Nat → Except String String) (dm t : String)
    (rest : List Nat) (a : Nat) (h : gen a = .ok t) :
    deepGo gen dm (a :: rest) = ⟨t, [⟨"analyze_videos", .done, dm⟩], 1, []⟩ := by
  rw [deepGo, h]
  simp [deepStep]

theorem deepGo_delays_shape (gen : Nat → Except String String) (dm : String) :
    ∀ l : List Nat, ∀ x ∈ (deepGo gen dm l).delays,
      ∃ a, a ∈ l ∧ a < 3 ∧ x = a * 5000 ∧
        ∃ e, gen a = .error e ∧ isRateLimitMsg e = true := by
  intro l
  induction l with
  | nil => intro x hx; simp [deepGo] at hx
  | cons attempt rest ih =>
    intro x hx
    rw [deepGo] at hx
    cases hg : gen attempt with
    | ok t =>
      rw [hg] at hx
      simp [deepStep] at hx
    | error e =>
      rw [hg] at hx
      simp only [deepStep] at hx
      split at hx
      · rename_i hcond
        rcases List.mem_cons.mp hx with rfl | hx
        · exact ⟨attempt, List.mem_cons_self _ _, hcond.1, rfl, e, hg, hcond.2⟩
        · rcases ih x hx with ⟨a, ha, h3, hval, e2, hg2, hr2⟩
          exact ⟨a, List.mem_cons_of_mem _ ha, h3, hval, e2, hg2, hr2⟩
      · split at hx
        · simp at hx
        · rcases ih x hx with ⟨a, ha, h3, hval, e2, hg2, hr2⟩
          exact ⟨a, List.mem_cons_of_mem _ ha, h3, hval, e2, hg2, hr2⟩

theorem deepGo_three_rate (gen : Nat → Except String String) (dm : String)
    (e1 e2 e3 : String) (h1 : gen 1 = .error e1) (h2 : gen 2 = .error e2)
    (h3 : gen 3 = .error e3) (hr1 : isRateLimitMsg e1 = true)
    (hr2 : isRateLimitMsg e2 = true) :
    deepGo gen dm [1, 2, 3] =
      ⟨"", [deepRetryEvt 1, deepRetryEvt 2, deepErrEvt], 3, [5000, 10000]⟩ := by
  have e3eq : deepGo gen dm [3] = ⟨"", [deepErrEvt], 1, []⟩ := by
    rw [deepGo, h3]
    simp only [deepStep]
    rw [if_neg (by omega)]
    simp
  have e2eq : deepGo gen dm [2, 3] = ⟨"", [deepRetryEvt 2, deepErrEvt], 2, [10000]⟩ := by
    rw [deepGo, h2]
    simp only [deepStep]
    rw [if_pos ⟨by omega, hr2⟩, e3eq]
  rw [deepGo, h1]
  simp only [deepStep]
  rw [if_pos ⟨by omega, hr1⟩, e2eq]

theorem deepGo_all_fail (gen : Nat → Except String String) (dm : String)
    (e1 e2 e3 : String) (h1 : gen 1 = .error e1) (h2 : gen 2 = .error e2)
    (h3 : gen 3 = .error e3) :
    (deepGo gen dm [1, 2, 3]).calls = 3 ∧ (deepGo gen dm [1, 2, 3]).text = "" := by
  have e3eq : (deepGo gen dm [3]).calls = 1 ∧ (deepGo gen dm [3]).text = "" := by
    rw [deepGo, h3]
    simp only [deepStep]
    rw [if_neg (by omega)]
    simp
  have e2eq : (deepGo gen dm [2, 3]).calls = 2 ∧ (deepGo gen dm [2, 3]).text = "" := by
    rw [deepGo, h2]
    simp only [deepStep]
    split
    · exact ⟨by simp [e3eq.1], e3eq.2⟩
    · rw [if_neg (by omega)]
      exact ⟨by simp [e3eq.1], e3eq.2⟩
  rw [deepGo, h1]
  simp only [deepStep]
  split
  · exact ⟨by simp [e2eq.1], e2eq.2⟩
  · rw [if_neg (by omega)]
    exact ⟨by simp [e2eq.1], e2eq.2⟩

theorem fallbackStage_spec (w : World) (deepText : String) (interviews : List Video) :
    (fallbackStage w deepText interviews).1 ≠ "" ↔
      (deepText ≠ "" ∨ ((fallbackStage w deepText interviews).2.2 = true ∧
        ∃ t, w.metaGen = .ok t ∧ t ≠ "")) := by
  unfold fallbackStage
  by_cases hd : deepText = ""
  · subst hd
    by_cases hi : interviews.length > 0
    · rw [if_pos (by simp [jsTruthy, hi])]
      cases hm : w.metaGen with
      | ok t =>
        simp only [ne_eq, not_true_eq_false, false_or, true_and]
        constructor
        · intro ht
          exact ⟨t, rfl, ht⟩
        · rintro ⟨t', ht', hne⟩
          cases ht'
          exact hne
      | error e => simp
    · rw [if_neg (by simp [jsTruthy, hi])]
      simp
  · rw [if_neg (by simp [jsTruthy, hd])]
    simp [hd]

/-! ### Helper lemmas: quota-exhausted search -/

theorem researchGuest_allquota {search : String → Nat → Except String (List Video)}
    (hq : ∀ q n, ∃ m, search q n = .error m ∧ isQuotaMsg m = true)
    (g : String) (isPro : Bool) :
    researchGuest g true search isPro = .error quotaExhaustedMsg := by
  have hvideos : (searchFinal g search isPro).allVideos = [] := by
    unfold searchFinal
    exact searchLoop_allquota hq _ _
  have hqe : 1 ≤ (searchFinal g search isPro).quotaErrors := by
    unfold searchFinal queriesFor baseQueries proExtraQueries
    cases isPro
    · simp only [Bool.false_eq_true, if_false]
      rcases hq ("\"" ++ g ++ "\" interview") 20 with ⟨m, hm, hqm⟩
      rw [searchLoop]
      norm_num [capReached, hm, hqm]
      exact searchLoop_qe_mono _ ⟨[], [], 1, _⟩
    · simp only [if_true]
      rcases hq ("\"" ++ g ++ "\" interview") 50 with ⟨m, hm, hqm⟩
      rw [List.cons_append, searchLoop]
      norm_num [capReached, hm, hqm]
      exact searchLoop_qe_mono _ ⟨[], [], 1, _⟩
  unfold researchGuest
  rw [if_neg (by simp)]
  rw [if_pos (by
    simp only [hvideos, List.length_nil, Bool.and_eq_true, decide_eq_true_eq]
    exact ⟨by omega, by simp⟩)]

/-! ### Claim C5 — the relevance filter -/

theorem allLC_of_title {v : Video} {t : String}
    (h : strIncludes (titleLC v) t = true) : strIncludes (allLC v) t = true := by
  unfold allLC
  exact strIncludes_append_left _ (strIncludes_append_left _
    (strIncludes_append_left _ (strIncludes_append_left _ h)))

theorem allLC_of_chan {v : Video} {t : String}
    (h : strIncludes (chanLC v) t = true) : strIncludes (allLC v) t = true := by
  unfold allLC
  exact strIncludes_append_right _ h

theorem fullName_includes_lastTok {g : String} (h : lastTok g ≠ "") :
    strIncludes (lowerStr g) (lastTok g) = true :=
  nameTokens_occursIn (lastTok_mem (lastTok_nonempty_iff h))

/-- Claim C5 (corrected): the counterexample.  For the subject "Li Po" no
name part survives the `length > 2` filter, so both tokens are empty and the
unguarded channel test `channel.includes('')` keeps every candidate: the
video "Cooking tips" on channel "Bob" contains neither the full name "li po"
nor the tokens "li"/"po" anywhere, yet the filter keeps it — refuting "a
candidate containing neither name token anywhere is always dropped". -/
theorem C5_counterexample :
    relevanceKeep "Li Po" vCooking = true ∧
    nameTokens "Li Po" = [] ∧
    strIncludes (allLC vCooking) (lowerStr "Li Po") = false ∧
    strIncludes (allLC vCooking) "li" = false ∧
    strIncludes (allLC vCooking) "po" = false := by
  refine ⟨?_, ?_, ?_, ?_, ?_⟩ <;> decide

/-- Claim C5 (amended): the relevance filter, for subjects with at least one
name token longer than two characters.  (1) A candidate whose title contains
the full lower-cased subject name is always kept.  (2) When the last token is
non-empty, a candidate is kept iff the full name appears in
title+description+channel, or the last token appears in the title, or both
first and last tokens appear anywhere, or the channel contains either token.
(3) When the last token is non-empty, a candidate containing neither the
first nor the last token anywhere in title+description+channel is dropped.
When no token survives the length filter, every candidate is kept
(see the counterexample). -/
theorem C5_relevance_filter (g : String) (v : Video) :
    (strIncludes (titleLC v) (lowerStr g) = true → relevanceKeep g v = true) ∧
    (lastTok g ≠ "" →
      (relevanceKeep g v = true ↔
        (strIncludes (allLC v) (lowerStr g) = true ∨
         strIncludes (titleLC v) (lastTok g) = true ∨
         (strIncludes (allLC v) (firstTok g) = true ∧
           strIncludes (allLC v) (lastTok g) = true) ∨
         strIncludes (chanLC v) (lastTok g) = true ∨
         strIncludes (chanLC v) (firstTok g) = true))) ∧
    (lastTok g ≠ "" → strIncludes (allLC v) (firstTok g) = false →
      strIncludes (allLC v) (lastTok g) = false → relevanceKeep g v = false) := by
  refine ⟨?_, ?_, ?_⟩
  · intro h
    unfold relevanceKeep
    rw [allLC_of_title h]
    simp
  · intro hl
    have hT : jsTruthy (lastTok g) = true := (jsTruthy_iff _).mpr hl
    have hF : jsTruthy (firstTok g) = true := (jsTruthy_iff _).mpr (firstTok_nonempty hl)
    unfold relevanceKeep
    rw [hT, hF]
    simp [or_assoc, and_assoc]
  · intro hl hfirst hlast
    have hfull : strIncludes (allLC v) (lowerStr g) = false := by
      cases hcase : strIncludes (allLC v) (lowerStr g) with
      | false => rfl
      | true =>
        have := strIncludes_trans (fullName_includes_lastTok hl) hcase
        rw [hlast] at this
        cases this
    have htitle : strIncludes (titleLC v) (lastTok g) = false := by
      cases hcase : strIncludes (titleLC v) (lastTok g) with
      | false => rfl
      | true =>
        have := allLC_of_title hcase
        rw [hlast] at this
        cases this
    have hchanL : strIncludes (chanLC v) (lastTok g) = false := by
      cases hcase : strIncludes (chanLC v) (lastTok g) with
      | false => rfl
      | true =>
        have := allLC_of_chan hcase
        rw [hlast] at this
        cases this
    have hchanF : strIncludes (chanLC v) (firstTok g) = false := by
      cases hcase : strIncludes (chanLC v) (firstTok g) with
      | false => rfl
      | true =>
        have := allLC_of_chan hcase
        rw [hfirst] at this
        cases this
    unfold relevanceKeep
    rw [hfull, htitle, hchanL, hchanF, hfirst]
    simp

/-- Witness for C5: a video with the exact full subject name in its title is
kept. -/
theorem C5_witness : relevanceKeep "jane doe" vJane = true :=
  (C5_relevance_filter "jane doe" vJane).1 (by decide)

/-! ### Claim C7 — deduplication of search results -/

/-- Claim C7 (confirmed): the query loop never accumulates the same video id
twice — for any oracle, any query list (including one issuing the same query
twice), and any mode parameters — and consequently every video id in a
successful `researchGuest` result (hence in a report's video list) is
unique. -/
theorem C7_dedup :
    (∀ (search : String → Nat → Except String (List Video)) (mr : Nat)
       (cap : Option Nat) (mq : Nat) (qs : List String),
       ((searchLoop search mr cap mq qs ⟨[], [], 0, []⟩).allVideos.map Video.videoId).Nodup) ∧
    (∀ (g : String) (keyOk : Bool) (search : String → Nat → Except String (List Video))
       (isPro : Bool) (r : YTResult),
       researchGuest g keyOk search isPro = .ok r →
       (r.interviews.map Video.videoId).Nodup) :=
  ⟨fun search mr cap mq qs => searchLoop_nodup search mr cap mq qs,
   fun _ _ _ _ _ h => (researchGuest_ok h).2⟩

/-- Witness for C7 at a concrete oracle that returns the same two videos for
every query. -/
theorem C7_witness :
    (((⟨"jane doe", 2, [vJane, vJane2]⟩ : YTResult).interviews.map Video.videoId)).Nodup :=
  C7_dedup.2 "jane doe" true janeSearch false ⟨"jane doe", 2, [vJane, vJane2]⟩ (by rfl)

/-! ### Claim C9 — the public route always runs Free mode -/

/-- Claim C9 (confirmed): `auth.getApiKeys` only ever returns the two key
fields and never `hasCustomKey`, so `getUserKeys` always yields an object
with `hasCustomKey` absent; consequently `deepResearch` computes
`isPro = !!userKeys.hasCustomKey = false` on every run served through the
POST `/api/research-guest` route, the Free query set (8 base queries) is
used, and the Pro-mode branches are unreachable from the public interface
regardless of the stored custom keys. -/
theorem C9_free_mode_only :
    (∀ (store : String → Option UserRecord) (uid : String),
       (getUserKeys store uid).hasCustomKey = none) ∧
    (∀ (store : String → Option UserRecord) (uid g ctx : String) (w : World),
       (deepResearch g ctx (getUserKeys store uid) w).trace.isPro = false) ∧
    (∀ g : String, queriesFor g false = baseQueries g) ∧
    (∀ (store : String → Option UserRecord) (uid g ctx : String) (w : World)
       (out : RunOut), researchGuestRoute store uid g ctx w = .ok out →
       out.trace.isPro = false) := by
  have hkeys : ∀ (store : String → Option UserRecord) (uid : String),
      (getUserKeys store uid).hasCustomKey = none := by
    intro store uid
    unfold getUserKeys getApiKeys
    cases store uid <;> rfl
  have hpro : ∀ (store : String → Option UserRecord) (uid g ctx : String) (w : World),
      (deepResearch g ctx (getUserKeys store uid) w).trace.isPro = false := by
    intro store uid g ctx w
    have h1 : (deepResearch g ctx (getUserKeys store uid) w).trace.isPro =
        isProOf (getUserKeys store uid) := rfl
    rw [h1]
    unfold isProOf
    rw [hkeys]
    rfl
  refine ⟨hkeys, hpro, fun _ => rfl, ?_⟩
  intro store uid g ctx w out hroute
  unfold researchGuestRoute at hroute
  split at hroute
  · cases hroute
  · cases hroute
    exact hpro store uid g ctx w

/-- Witness for C9: a run through the route with an empty key store executes
in Free mode. -/
theorem C9_witness :
    (deepResearch "jane doe" "" (getUserKeys (fun _ => none) "u") quotaWorld).trace.isPro
      = false :=
  C9_free_mode_only.2.2.2 (fun _ => none) "u" "jane doe" "" quotaWorld _ rfl

/-! ### Claim C10 — a thrown transcript stage degrades, not aborts -/

/-- Claim C10 (confirmed): if the transcript-fetch stage itself throws, the
orchestrator emits an error-status `transcripts` event, classifies every
found video as transcript-less (hands the full video list to the ModelWatch
stage), and the run still completes and produces a report. -/
theorem C10_transcript_crash_degrades (w : World) (g ctx : String) (keys : JSKeys)
    (m : String) (r : YTResult)
    (hcrash : w.transcriptCrash = some m)
    (hyt : researchGuest (searchNameOf g w) w.ytKeyOk w.search (isProOf keys) = .ok r)
    (hne : r.interviews ≠ []) :
    (⟨"transcripts", .error,
        "Transcript fetching failed, AI will analyze videos directly"⟩ : Event)
      ∈ (deepResearch g ctx keys w).events ∧
    (deepResearch g ctx keys w).trace.geminiInput = r.interviews ∧
    (⟨"complete", .done, "Research complete!"⟩ : Event)
      ∈ (deepResearch g ctx keys w).events := by
  have hyts : ytStage g w (isProOf keys) =
      (r, [⟨"youtube", .done,
        "Found " ++ toString r.totalInterviewsFound ++ " relevant YouTube videos"⟩]) := by
    unfold ytStage
    rw [hyt]
  have hlen : r.interviews.length > 0 := by
    cases hcase : r.interviews with
    | nil => exact absurd hcase hne
    | cons a l => simp [hcase]
  have hts : transcriptStage w r.interviews =
      ([], r.interviews,
        [⟨"transcripts", .active,
          "Reading transcripts from all " ++ toString r.interviews.length
            ++ " videos (any language)..."⟩,
         ⟨"transcripts", .error,
          "Transcript fetching failed, AI will analyze videos directly"⟩]) := by
    unfold transcriptStage
    rw [if_pos hlen, hcrash]
  refine ⟨?_, ?_, ?_⟩
  · show _ ∈ (deepResearch g ctx keys w).events
    simp only [deepResearch, hyts, hts]
    simp
  · show (transcriptStage w (ytStage g w (isProOf keys)).1.interviews).2.1 = r.interviews
    rw [hyts, hts]
  · simp only [deepResearch, hyts, hts]
    simp

/-- Witness for C10: with the search returning the two Jane videos and the
transcript stage throwing, the run emits the error event, hands both videos
to the ModelWatch stage and still completes. -/
theorem C10_witness :
    (⟨"transcripts", .error,
        "Transcript fetching failed, AI will analyze videos directly"⟩ : Event)
      ∈ (deepResearch "jane doe" "" noKeys crashWorld).events ∧
    (deepResearch "jane doe" "" noKeys crashWorld).trace.geminiInput = [vJane, vJane2] ∧
    (⟨"complete", .done, "Research complete!"⟩ : Event)
      ∈ (deepResearch "jane doe" "" noKeys crashWorld).events := by
  have h := C10_transcript_crash_degrades crashWorld "jane doe" "" noKeys "boom"
    ⟨"jane doe", 2, [vJane, vJane2]⟩ rfl (by rfl) (by simp)
  exact ⟨h.1, h.2.1, h.2.2⟩

/-! ### Claim C3 — the consecutive-failure circuit breaker -/

theorem range_split3 (k : Nat) :
    List.range (k + 3) = ((List.range k ++ [k]) ++ [k + 1]) ++ [k + 2] := by
  have e1 : List.range (k + 1) = List.range k ++ [k] := List.range_succ k
  have e2 : List.range (k + 2) = List.range (k + 1) ++ [k + 1] := List.range_succ (k + 1)
  have e3 : List.range (k + 3) = List.range (k + 2) ++ [k + 2] := List.range_succ (k + 2)
  rw [e3, e2, e1]

set_option maxRecDepth 10000 in
/-- Claim C3 (corrected): the counterexample for the Pro half of the claim.
With nine transcript-less videos where only the first analysis succeeds, the
calls at indices 1–5 are five consecutive failures, yet the Pro batch loop
still issues the calls at indices 6, 7 and 8: the `consecutiveFailures`
counter is only advanced when an entire batch of three fails (a partially
failed batch resets it to zero), so "once 5 consecutive analysis calls have
failed no further calls are issued" does not hold. -/
theorem C3_counterexample :
    (analyzeVideosWithGemini onlyV0Gen vids9 true).calls = [0, 1, 2, 3, 4, 5, 6, 7, 8] ∧
    (analyzeVideosWithGemini onlyV0Gen vids9 true).results.length = 1 := by
  refine ⟨?_, ?_⟩ <;> decide

/-- Claim C3 (amended): Free mode: if the three calls after a successful
prefix all fail and at least one more video remains within the cap, the loop
stops issuing calls exactly at index `k + 3` (k = prefix length) and emits an
error-status event.  Pro mode: the counter advances only on fully-failed
batches, so after two consecutive fully-failed batches of three (six failed
calls) the loop stops before the next batch, emitting an error-status
event. -/
theorem C3_circuit_breaker (gen gen2 : Video → Except String String)
    (vs l₁ : List Video) (f1 f2 f3 : Video) (rest : List Video)
    (vs2 : List Video) (p1 p2 p3 p4 p5 p6 : Video) (rest2 : List Video)
    (hsplit : vs.take 15 = l₁ ++ f1 :: f2 :: f3 :: rest)
    (hrest : rest ≠ [])
    (hsucc : ∀ v ∈ l₁, (analyzeVideoWithGemini gen v).isSome)
    (hf1 : analyzeVideoWithGemini gen f1 = none)
    (hf2 : analyzeVideoWithGemini gen f2 = none)
    (hf3 : analyzeVideoWithGemini gen f3 = none)
    (hsplit2 : vs2 = p1 :: p2 :: p3 :: p4 :: p5 :: p6 :: rest2)
    (hrest2 : rest2 ≠ [])
    (hp1 : analyzeVideoWithGemini gen2 p1 = none)
    (hp2 : analyzeVideoWithGemini gen2 p2 = none)
    (hp3 : analyzeVideoWithGemini gen2 p3 = none)
    (hp4 : analyzeVideoWithGemini gen2 p4 = none)
    (hp5 : analyzeVideoWithGemini gen2 p5 = none)
    (hp6 : analyzeVideoWithGemini gen2 p6 = none) :
    ((analyzeVideosWithGemini gen vs false).calls = List.range (l₁.length + 3) ∧
      ∃ msg, (⟨"gemini_video", EStatus.error, msg⟩ : Event)
        ∈ (analyzeVideosWithGemini gen vs false).events) ∧
    ((analyzeVideosWithGemini gen2 vs2 true).calls = List.range 6 ∧
      ∃ msg, (⟨"gemini_video", EStatus.error, msg⟩ : Event)
        ∈ (analyzeVideosWithGemini gen2 vs2 true).events) := by
  constructor
  · cases rest with
    | nil => exact absurd rfl hrest
    | cons wv ws =>
      obtain ⟨res2, ev2, heq⟩ := geminiFreeGo_ok_prefix (analyzeVideoWithGemini gen)
        (l₁ ++ f1 :: f2 :: f3 :: wv :: ws).length
        (vs.length - (l₁ ++ f1 :: f2 :: f3 :: wv :: ws).length) l₁ hsucc
        (f1 :: f2 :: f3 :: wv :: ws) 0 [] [] []
      have hfull : analyzeVideosWithGemini gen vs false =
          mkGemOut
            (geminiFreeGo (analyzeVideoWithGemini gen)
              (l₁ ++ f1 :: f2 :: f3 :: wv :: ws).length
              (vs.length - (l₁ ++ f1 :: f2 :: f3 :: wv :: ws).length)
              (l₁ ++ f1 :: f2 :: f3 :: wv :: ws) 0 ⟨[], 0, [], []⟩)
            (vs.length - (l₁ ++ f1 :: f2 :: f3 :: wv :: ws).length) := by
        rw [show analyzeVideosWithGemini gen vs false = mkGemOut
            (geminiFreeGo (analyzeVideoWithGemini gen) (vs.take 15).length
              (vs.length - (vs.take 15).length) (vs.take 15) 0 ⟨[], 0, [], []⟩)
            (vs.length - (vs.take 15).length) from rfl, hsplit]
      rw [hfull, heq, geminiFreeGo_three_fail (analyzeVideoWithGemini gen) _ _ wv ws
        hf1 hf2 hf3 (0 + l₁.length) res2 ev2 _]
      constructor
      · simp only [mkGemOut]
        rw [range_split3]
        simp
      · exact ⟨_, List.mem_append_right _ (List.mem_singleton_self _)⟩
  · cases hcc : chunk3 rest2 with
    | nil => exact absurd hcc (chunk3_ne_nil hrest2)
    | cons b bs =>
      have hch : chunk3 (vs2.take vs2.length) = [p1, p2, p3] :: [p4, p5, p6] :: b :: bs := by
        rw [List.take_length, hsplit2,
          show chunk3 (p1 :: p2 :: p3 :: p4 :: p5 :: p6 :: rest2)
            = [p1, p2, p3] :: chunk3 (p4 :: p5 :: p6 :: rest2) from rfl,
          show chunk3 (p4 :: p5 :: p6 :: rest2) = [p4, p5, p6] :: chunk3 rest2 from rfl,
          hcc]
      have hfull : analyzeVideosWithGemini gen2 vs2 true =
          mkGemOut
            (geminiProGo (analyzeVideoWithGemini gen2) (vs2.take vs2.length).length
              ([p1, p2, p3] :: [p4, p5, p6] :: b :: bs) 0 ⟨[], 0, [], []⟩)
            (vs2.length - (vs2.take vs2.length).length) := by
        rw [show analyzeVideosWithGemini gen2 vs2 true = mkGemOut
            (geminiProGo (analyzeVideoWithGemini gen2) (vs2.take vs2.length).length
              (chunk3 (vs2.take vs2.length)) 0 ⟨[], 0, [], []⟩)
            (vs2.length - (vs2.take vs2.length).length) from rfl, hch]
      rw [hfull, geminiProGo_six_fail (analyzeVideoWithGemini gen2) _ b bs
        hp1 hp2 hp3 hp4 hp5 hp6 0 [] [] []]
      constructor
      · simp only [mkGemOut]
        decide
      · exact ⟨_, List.mem_append_right _ (List.mem_singleton_self _)⟩

set_option maxRecDepth 10000 in
/-- Witness for C3: Free mode with a success at video 0 and forced failures
at videos 1–3 stops at index 4 (index k + 3 with k = 1); Pro mode with six
failing videos and a seventh remaining stops after the second batch. -/
theorem C3_witness :
    ((analyzeVideosWithGemini freeWitnessGen vids5 false).calls = List.range (1 + 3) ∧
      ∃ msg, (⟨"gemini_video", EStatus.error, msg⟩ : Event)
        ∈ (analyzeVideosWithGemini freeWitnessGen vids5 false).events) ∧
    ((analyzeVideosWithGemini alwaysFailGen vids7 true).calls = List.range 6 ∧
      ∃ msg, (⟨"gemini_video", EStatus.error, msg⟩ : Event)
        ∈ (analyzeVideosWithGemini alwaysFailGen vids7 true).events) := by
  have h := C3_circuit_breaker freeWitnessGen alwaysFailGen vids5 [mkVid 0]
    (mkVid 1) (mkVid 2) (mkVid 3) [mkVid 4] vids7 (mkVid 0) (mkVid 1) (mkVid 2)
    (mkVid 3) (mkVid 4) (mkVid 5) [mkVid 6]
    (by decide) (by decide) (by decide) (by decide) (by decide) (by decide)
    (by decide) (by decide) (by decide) (by decide) (by decide) (by decide)
    (by decide) (by decide)
  exact ⟨⟨by simpa using h.1.1, h.1.2⟩, h.2⟩

/-! ### Claim C6 — Free vs Pro mode policy -/

set_option maxRecDepth 10000 in
/-- Claim C6 (corrected): the counterexample to "Pro mode analyzes all
transcript-less videos".  With seven videos whose every analysis fails, the
Pro batch loop's circuit breaker stops after the first two batches: only the
calls at indices 0–5 are issued and the seventh video is never analyzed. -/
theorem C6_counterexample :
    vids7.length = 7 ∧
    (analyzeVideosWithGemini alwaysFailGen vids7 true).calls = [0, 1, 2, 3, 4, 5] ∧
    (analyzeVideosWithGemini alwaysFailGen vids7 true).results = [] := by
  refine ⟨by decide, by decide, by decide⟩

/-- Claim C6 (amended): Free mode issues at most 15 model-watch calls and
reports the remainder as skipped, and its search loop never lets the
quota-error count exceed 3; Pro mode skips nothing, its search loop issues
every one of its queries (its quota tolerance equals the query count), and
when every analysis call succeeds it analyzes all the videos — but with
failures its circuit breaker may stop before the last video, so "Pro
analyzes all transcript-less videos" holds only on these terms. -/
theorem C6_mode_policy (gen : Video → Except String String) (vs : List Video)
    (g : String) (search : String → Nat → Except String (List Video)) :
    (analyzeVideosWithGemini gen vs false).calls.length ≤ 15 ∧
    (analyzeVideosWithGemini gen vs false).skipped = vs.length - min 15 vs.length ∧
    (searchFinal g search false).quotaErrors ≤ 3 ∧
    (analyzeVideosWithGemini gen vs true).skipped = 0 ∧
    ((∀ v ∈ vs, (analyzeVideoWithGemini gen v).isSome) →
      (analyzeVideosWithGemini gen vs true).results.length = vs.length) ∧
    (searchFinal g search true).issued = queriesFor g true := by
  refine ⟨?_, ?_, ?_, ?_, ?_, ?_⟩
  · obtain ⟨-, hc, -⟩ := geminiFreeGo_sub (analyzeVideoWithGemini gen)
      (vs.take 15).length (vs.length - (vs.take 15).length)
      (fun v t h => analyzeVideoWithGemini_videoId h) (vs.take 15) 0 ⟨[], 0, [], []⟩
    have h15 : (vs.take 15).length ≤ 15 := by
      rw [List.length_take]; exact Nat.min_le_left _ _
    have he : (analyzeVideosWithGemini gen vs false).calls =
        (geminiFreeGo (analyzeVideoWithGemini gen) (vs.take 15).length
          (vs.length - (vs.take 15).length) (vs.take 15) 0 ⟨[], 0, [], []⟩).calls := rfl
    rw [he]
    exact le_trans (by simpa using hc) h15
  · show vs.length - (vs.take 15).length = vs.length - min 15 vs.length
    rw [List.length_take]
  · show (searchLoop search 20 (some 100) 3 (queriesFor g false)
      ⟨[], [], 0, []⟩).quotaErrors ≤ 3
    exact searchLoop_qe_le _ _ (Nat.zero_le _)
  · show vs.length - (vs.take vs.length).length = 0
    rw [List.take_length]
    omega
  · intro hall
    obtain ⟨ev2, hrun⟩ := geminiProGo_allOk (analyzeVideoWithGemini gen)
      (vs.take vs.length).length (chunk3 (vs.take vs.length))
      (by rw [chunk3_flatten, List.take_length]; exact hall) 0 [] [] []
    have he : (analyzeVideosWithGemini gen vs true).results =
        (geminiProGo (analyzeVideoWithGemini gen) (vs.take vs.length).length
          (chunk3 (vs.take vs.length)) 0 ⟨[], 0, [], []⟩).results := rfl
    rw [he, hrun]
    show ([] ++ (chunk3 (vs.take vs.length)).flatten.filterMap
      (analyzeVideoWithGemini gen)).length = vs.length
    rw [List.nil_append, chunk3_flatten, List.take_length,
      filterMap_allSome_length _ _ hall]
  · show (searchLoop search 50 none (queriesFor g true).length (queriesFor g true)
      ⟨[], [], 0, []⟩).issued = queriesFor g true
    rw [searchLoop_issued (queriesFor g true) ⟨[], [], 0, []⟩ (by simp)]
    simp

set_option maxRecDepth 10000 in
/-- Witness for C6 at a concrete request: an always-succeeding analyzer over
five videos and the Jane search oracle. -/
theorem C6_witness :
    (analyzeVideosWithGemini alwaysOkGen vids5 false).calls.length ≤ 15 ∧
    (analyzeVideosWithGemini alwaysOkGen vids5 false).skipped
      = vids5.length - min 15 vids5.length ∧
    (searchFinal "jane doe" janeSearch false).quotaErrors ≤ 3 ∧
    (analyzeVideosWithGemini alwaysOkGen vids5 true).skipped = 0 ∧
    ((∀ v ∈ vids5, (analyzeVideoWithGemini alwaysOkGen v).isSome) →
      (analyzeVideosWithGemini alwaysOkGen vids5 true).results.length
        = vids5.length) ∧
    (searchFinal "jane doe" janeSearch true).issued = queriesFor "jane doe" true :=
  C6_mode_policy alwaysOkGen vids5 "jane doe" janeSearch

/-! ### Claim C4 — deep-analysis retry policy and metadata fallback -/

/-- Claim C4 (corrected): the counterexample to "does not retry any other
error".  With a model that always throws "boom" — not rate-limit-shaped —
the retry loop still issues all three calls: a non-rate error before attempt
3 silently falls through to the next attempt (research.js lines 127-137
retry only on the 429/quota/rate shape, but nothing breaks the loop for
other errors). -/
theorem C4_counterexample :
    isRateLimitMsg "boom" = false ∧
    (deepGo (fun _ => Except.error "boom") "done" [1, 2, 3]).calls = 3 := by
  refine ⟨by decide, by decide⟩

/-- Claim C4 (amended): the loop makes at most 3 calls; every slept delay is
`attempt × 5000` ms for some attempt < 3 whose call failed with a
rate-limit-shaped error; a first-attempt success returns immediately after
one call with the done event and no delay; three failures that are
rate-limited on attempts 1 and 2 produce exactly the two retry events, the
terminal error event, 3 calls and delays [5000, 10000]; and the final
`videoAnalysis` is non-empty iff the deep narrative is non-empty or the
metadata fallback ran and its model call returned non-empty text. -/
theorem C4_retry_policy (gen genOk genRate : Nat → Except String String)
    (dm t e1 e2 e3 : String) (w : World) (deepText : String)
    (interviews : List Video)
    (hok : genOk 1 = .ok t)
    (h1 : genRate 1 = .error e1) (h2 : genRate 2 = .error e2)
    (h3 : genRate 3 = .error e3)
    (hr1 : isRateLimitMsg e1 = true) (hr2 : isRateLimitMsg e2 = true) :
    (deepGo gen dm [1, 2, 3]).calls ≤ 3 ∧
    (∀ x ∈ (deepGo gen dm [1, 2, 3]).delays,
      ∃ a, a ∈ [1, 2, 3] ∧ a < 3 ∧ x = a * 5000 ∧
        ∃ e, gen a = .error e ∧ isRateLimitMsg e = true) ∧
    deepGo genOk dm [1, 2, 3] = ⟨t, [⟨"analyze_videos", .done, dm⟩], 1, []⟩ ∧
    deepGo genRate dm [1, 2, 3]
      = ⟨"", [deepRetryEvt 1, deepRetryEvt 2, deepErrEvt], 3, [5000, 10000]⟩ ∧
    ((fallbackStage w deepText interviews).1 ≠ "" ↔
      (deepText ≠ "" ∨ ((fallbackStage w deepText interviews).2.2 = true ∧
        ∃ t2, w.metaGen = .ok t2 ∧ t2 ≠ ""))) :=
  ⟨by simpa using deepGo_calls_le gen dm [1, 2, 3],
   deepGo_delays_shape gen dm [1, 2, 3],
   deepGo_first_ok genOk dm t [2, 3] 1 hok,
   deepGo_three_rate genRate dm e1 e2 e3 h1 h2 h3 hr1 hr2,
   fallbackStage_spec w deepText interviews⟩

/-- Witness for C4 at concrete oracles: an always-"boom" model, an
immediately succeeding model, and an always-429 model. -/
theorem C4_witness :
    (deepGo (fun _ => Except.error "boom" : Nat → Except String String)
        "done" [1, 2, 3]).calls ≤ 3 ∧
    (∀ x ∈ (deepGo (fun _ => Except.error "boom" : Nat → Except String String)
        "done" [1, 2, 3]).delays,
      ∃ a, a ∈ [1, 2, 3] ∧ a < 3 ∧ x = a * 5000 ∧
        ∃ e, (fun _ => Except.error "boom" : Nat → Except String String) a
            = Except.error e
          ∧ isRateLimitMsg e = true) ∧
    deepGo (fun _ => Except.ok "deep" : Nat → Except String String) "done" [1, 2, 3]
      = ⟨"deep", [⟨"analyze_videos", .done, "done"⟩], 1, []⟩ ∧
    deepGo (fun _ => Except.error "429" : Nat → Except String String) "done" [1, 2, 3]
      = ⟨"", [deepRetryEvt 1, deepRetryEvt 2, deepErrEvt], 3, [5000, 10000]⟩ ∧
    ((fallbackStage crashWorld "" []).1 ≠ "" ↔
      ("" ≠ "" ∨ ((fallbackStage crashWorld "" []).2.2 = true ∧
        ∃ t2, crashWorld.metaGen = .ok t2 ∧ t2 ≠ ""))) :=
  C4_retry_policy (fun _ => Except.error "boom" : Nat → Except String String)
    (fun _ => Except.ok "deep" : Nat → Except String String)
    (fun _ => Except.error "429" : Nat → Except String String)
    "done" "deep" "429" "429" "429" crashWorld "" []
    rfl rfl rfl rfl (by decide) (by decide)

/-! ### Claim C8 — the question-generator model ladder -/

theorem allModelsFailedMsg_includes (e : String) :
    strIncludes (allModelsFailedMsg (some e)) e = true := by
  have hself : strIncludes e e = true :=
    (occursIn_iff e.data e.data).mpr ⟨[], [], by simp⟩
  unfold allModelsFailedMsg
  exact strIncludes_append_left _ (strIncludes_append_right _ hself)

/-- Claim C8 (confirmed): the generator walks the fixed ladder — two
attempts per model, in order; the first successful call returns the parsed
result immediately, having issued exactly the failing prefix plus that call;
if every (model, attempt) pair fails it returns the structured
`{success: false, error}` value (not an exception: the result is `.ok`)
whose message contains the last error's message, having issued the whole
ladder; and every cooldown slept is the fixed 20 s. -/
theorem C8_model_ladder (call callF : String → Nat → Except String String)
    (l l₂ lf : List (String × Nat)) (p pf : String × Nat) (d e : String)
    (hlad : attemptLadder = l ++ p :: l₂)
    (hfail : ∀ q ∈ l, ∃ x, call q.1 q.2 = .error x)
    (hok : call p.1 p.2 = .ok d)
    (hladf : attemptLadder = lf ++ [pf])
    (hfailf : ∀ q ∈ lf, ∃ x, callF q.1 q.2 = .error x)
    (hpf : callF pf.1 pf.2 = .error e) :
    attemptLadder = [("gemini-2.5-flash", 0), ("gemini-2.5-flash", 1),
      ("gemini-2.0-flash", 0), ("gemini-2.0-flash", 1),
      ("gemini-2.0-flash-lite", 0), ("gemini-2.0-flash-lite", 1)] ∧
    (∃ st, generateQuestions true call = .ok (⟨true, some d, none⟩, st) ∧
      st.callTrace = l ++ [p]) ∧
    (∃ st, generateQuestions true callF
        = .ok (⟨false, none, some (allModelsFailedMsg (some e))⟩, st) ∧
      st.callTrace = lf ++ [pf] ∧ ∀ x ∈ st.delays, x = 20000) ∧
    strIncludes (allModelsFailedMsg (some e)) e = true := by
  refine ⟨by decide, ?_, ?_, allModelsFailedMsg_includes e⟩
  · have h1 := genQGo_firstOk call p d hok l l₂ ⟨none, [], []⟩ hfail
    refine ⟨(genQGo call (l ++ p :: l₂) ⟨none, [], []⟩).2, ?_, by simpa using h1.2⟩
    show Except.ok (genQGo call attemptLadder ⟨none, [], []⟩) = _
    rw [hlad]
    exact congrArg Except.ok (Prod.ext h1.1 rfl)
  · have h2 := genQGo_allFail callF pf e hpf lf ⟨none, [], []⟩ hfailf
    have hd := genQGo_delays callF (lf ++ [pf]) ⟨none, [], []⟩ (by simp)
    refine ⟨(genQGo callF (lf ++ [pf]) ⟨none, [], []⟩).2, ?_, by simpa using h2.2, hd⟩
    show Except.ok (genQGo callF attemptLadder ⟨none, [], []⟩) = _
    rw [hladf]
    exact congrArg Except.ok (Prod.ext h2.1 rfl)

/-- Witness for C8: a call oracle that succeeds immediately, against one
that always fails with a rate-limit-shaped message. -/
theorem C8_witness :
    attemptLadder = [("gemini-2.5-flash", 0), ("gemini-2.5-flash", 1),
      ("gemini-2.0-flash", 0), ("gemini-2.0-flash", 1),
      ("gemini-2.0-flash-lite", 0), ("gemini-2.0-flash-lite", 1)] ∧
    (∃ st, generateQuestions true
        (fun _ _ => Except.ok "json" : String → Nat → Except String String)
        = .ok (⟨true, some "json", none⟩, st) ∧
      st.callTrace = [] ++ [("gemini-2.5-flash", 0)]) ∧
    (∃ st, generateQuestions true
        (fun _ _ => Except.error "quota 429" : String → Nat → Except String String)
        = .ok (⟨false, none, some (allModelsFailedMsg (some "quota 429"))⟩, st) ∧
      st.callTrace = [("gemini-2.5-flash", 0), ("gemini-2.5-flash", 1),
        ("gemini-2.0-flash", 0), ("gemini-2.0-flash", 1),
        ("gemini-2.0-flash-lite", 0)] ++ [("gemini-2.0-flash-lite", 1)] ∧
      ∀ x ∈ st.delays, x = 20000) ∧
    strIncludes (allModelsFailedMsg (some "quota 429")) "quota 429" = true :=
  C8_model_ladder
    (fun _ _ => Except.ok "json" : String → Nat → Except String String)
    (fun _ _ => Except.error "quota 429" : String → Nat → Except String String)
    [] [("gemini-2.5-flash", 1), ("gemini-2.0-flash", 0), ("gemini-2.0-flash", 1),
      ("gemini-2.0-flash-lite", 0), ("gemini-2.0-flash-lite", 1)]
    [("gemini-2.5-flash", 0), ("gemini-2.5-flash", 1), ("gemini-2.0-flash", 0),
      ("gemini-2.0-flash", 1), ("gemini-2.0-flash-lite", 0)]
    ("gemini-2.5-flash", 0) ("gemini-2.0-flash-lite", 1) "json" "quota 429"
    (by decide) (by simp) rfl (by decide)
    (fun q hq => ⟨"quota 429", rfl⟩) rfl

/-! ### Claim C1 — quota exhaustion and the fate of the run -/

set_option maxRecDepth 10000 in
/-- Claim C1 (corrected): the counterexample to "terminates the whole
research run".  With every search query failing on quota and zero videos
collected, the distinguished QUOTA_EXHAUSTED error is thrown by the search
stage but caught by the orchestrator (research.js lines 46-55): the run
surfaces it only as a youtube error-status progress event, continues, and
still finishes with the complete event and a report. -/
theorem C1_counterexample :
    (⟨"youtube", .error, "YouTube search failed: " ++ quotaExhaustedMsg⟩ : Event)
      ∈ (deepResearch "jane doe" "" noKeys quotaWorld).events ∧
    (⟨"complete", .done, "Research complete!"⟩ : Event)
      ∈ (deepResearch "jane doe" "" noKeys quotaWorld).events ∧
    (deepResearch "jane doe" "" noKeys quotaWorld).report.totalInterviewsFound = 0 := by
  refine ⟨by decide, by decide, by decide⟩

/-- Claim C1 (amended): if every search query fails with a quota-shaped
message (so zero videos are collected) and the YouTube key is configured,
then the search stage does raise the distinguished QUOTA_EXHAUSTED failure,
and the orchestrator catches it: the run emits a youtube error-status event
carrying the message, never reaches the transcript stage (no event of step
"transcripts" occurs), yet still completes and returns a report with zero
interviews found. -/
theorem C1_quota_degrades (w : World) (g ctx : String) (keys : JSKeys)
    (hq : ∀ q n, ∃ m, w.search q n = .error m ∧ isQuotaMsg m = true)
    (hk : w.ytKeyOk = true) :
    researchGuest (searchNameOf g w) w.ytKeyOk w.search (isProOf keys)
      = .error quotaExhaustedMsg ∧
    (⟨"youtube", .error, "YouTube search failed: " ++ quotaExhaustedMsg⟩ : Event)
      ∈ (deepResearch g ctx keys w).events ∧
    (∀ e ∈ (deepResearch g ctx keys w).events, e.step ≠ "transcripts") ∧
    (⟨"complete", .done, "Research complete!"⟩ : Event)
      ∈ (deepResearch g ctx keys w).events ∧
    (deepResearch g ctx keys w).report.totalInterviewsFound = 0 := by
  have hrg : researchGuest (searchNameOf g w) w.ytKeyOk w.search (isProOf keys)
      = .error quotaExhaustedMsg := by
    rw [hk]
    exact researchGuest_allquota hq (searchNameOf g w) (isProOf keys)
  have hyts : ytStage g w (isProOf keys) =
      (⟨"", 0, []⟩,
        [⟨"youtube", .error, "YouTube search failed: " ++ quotaExhaustedMsg⟩]) := by
    unfold ytStage
    rw [hrg]
  have hname : ∀ e ∈ nameEventsOf g w, e.step = "name_check" := by
    intro e he
    unfold nameEventsOf at he
    cases hc : correctGuestName g w.nameGen with
    | ok c =>
      simp only [hc] at he
      rcases List.mem_cons.mp he with rfl | he
      · rfl
      · split at he <;> (simp at he; subst he; rfl)
    | error ex =>
      simp only [hc] at he
      rcases List.mem_cons.mp he with rfl | he
      · rfl
      · simp at he
        subst he
        rfl
  have hweb : ∀ e ∈ webStageEvents w, e.step = "web_search" := by
    intro e he
    simp only [webStageEvents] at he
    rcases List.mem_cons.mp he with rfl | he
    · rfl
    · simp at he
      subst he
      rfl
  have hev : (deepResearch g ctx keys w).events =
      ⟨"start", .active, "Starting deep research on " ++ g ++ "..."⟩ ::
        nameEventsOf g w ++
        (⟨"youtube", .active,
          "Searching YouTube for " ++ searchNameOf g w
            ++ " interviews, podcasts, talks..."⟩ ::
          [⟨"youtube", .error, "YouTube search failed: " ++ quotaExhaustedMsg⟩]) ++
        webStageEvents w ++
        [⟨"compile", .active, "Compiling comprehensive intelligence report..."⟩,
         ⟨"compile", .done, "Intelligence report ready"⟩,
         ⟨"complete", .done, "Research complete!"⟩] := by
    simp [deepResearch, hyts, transcriptStage, geminiStage, deepStage,
      fallbackStage, jsTruthy]
  refine ⟨hrg, ?_, ?_, ?_, ?_⟩
  · rw [hev]
    simp
  · intro e he hstep
    rw [hev] at he
    rcases List.mem_cons.mp he with rfl | he
    · exact absurd hstep (by simp)
    rcases List.mem_append.mp he with he | he
    · rcases List.mem_append.mp he with he | he
      · rcases List.mem_append.mp he with he | he
        · rw [hname e he] at hstep
          exact absurd hstep (by simp)
        · rcases List.mem_cons.mp he with rfl | he
          · exact absurd hstep (by simp)
          · rcases List.mem_singleton.mp he with rfl
            exact absurd hstep (by simp)
      · rw [hweb e he] at hstep
        exact absurd hstep (by simp)
    · rcases List.mem_cons.mp he with rfl | he
      · exact absurd hstep (by simp)
      rcases List.mem_cons.mp he with rfl | he
      · exact absurd hstep (by simp)
      rcases List.mem_singleton.mp he with rfl
      exact absurd hstep (by simp)
  · rw [hev]
    simp
  · show (ytStage g w (isProOf keys)).1.totalInterviewsFound = 0
    rw [hyts]

/-- Witness for C1 on the all-quota world: the distinguished failure is
raised and caught, the transcript stage never runs, the run completes. -/
theorem C1_witness :
    researchGuest (searchNameOf "jane doe" quotaWorld) quotaWorld.ytKeyOk
      quotaWorld.search (isProOf noKeys) = .error quotaExhaustedMsg ∧
    (⟨"youtube", .error, "YouTube search failed: " ++ quotaExhaustedMsg⟩ : Event)
      ∈ (deepResearch "jane doe" "" noKeys quotaWorld).events ∧
    (∀ e ∈ (deepResearch "jane doe" "" noKeys quotaWorld).events,
      e.step ≠ "transcripts") ∧
    (⟨"complete", .done, "Research complete!"⟩ : Event)
      ∈ (deepResearch "jane doe" "" noKeys quotaWorld).events ∧
    (deepResearch "jane doe" "" noKeys quotaWorld).report.totalInterviewsFound = 0 :=
  C1_quota_degrades quotaWorld "jane doe" "" noKeys
    (fun q n => ⟨"quotaExceeded", rfl, by decide⟩) rfl

/-! ### Claim C2 — the analyzed-count invariant -/

theorem geminiStage_sub (w : World) (failed : List Video) (isPro : Bool) :
    (geminiStage w failed isPro).1.length ≤ failed.length ∧
    ∀ t ∈ (geminiStage w failed isPro).1, t.videoId ∈ failed.map Video.videoId := by
  by_cases hl : failed.length > 0
  · cases hcr : w.geminiCrash with
    | some m =>
      have hg : (geminiStage w failed isPro).1 = [] := by
        unfold geminiStage
        rw [if_pos hl, hcr]
      rw [hg]
      simp
    | none =>
      have hg : (geminiStage w failed isPro).1 =
          (analyzeVideosWithGemini w.videoGen failed isPro).results := by
        unfold geminiStage
        rw [if_pos hl, hcr]
      rw [hg]
      exact analyzeVideosWithGemini_sub w.videoGen failed isPro
  · have hg : (geminiStage w failed isPro).1 = [] := by
      unfold geminiStage
      rw [if_neg hl]
    rw [hg]
    simp

theorem stage_counts (w : World) (isPro : Bool) (interviews : List Video)
    (hnd : (interviews.map Video.videoId).Nodup) :
    (transcriptStage w interviews).1.length
      + (geminiStage w (transcriptStage w interviews).2.1 isPro).1.length
      ≤ interviews.length ∧
    ∀ id, id ∈ (transcriptStage w interviews).1.map TRec.videoId →
      id ∉ (geminiStage w (transcriptStage w interviews).2.1 isPro).1.map TRec.videoId := by
  by_cases hlen : interviews.length > 0
  · cases hcr : w.transcriptCrash with
    | some m =>
      have ht1 : (transcriptStage w interviews).1 = [] := by
        unfold transcriptStage
        rw [if_pos hlen, hcr]
      have ht2 : (transcriptStage w interviews).2.1 = interviews := by
        unfold transcriptStage
        rw [if_pos hlen, hcr]
      rw [ht1, ht2]
      obtain ⟨hg1, -⟩ := geminiStage_sub w interviews isPro
      exact ⟨by simpa using hg1, by simp⟩
    | none =>
      have ht1 : (transcriptStage w interviews).1
          = (fetchTranscripts w.fetchSeg interviews).transcripts := by
        unfold transcriptStage
        rw [if_pos hlen, hcr]
      have ht2 : (transcriptStage w interviews).2.1
          = (fetchTranscripts w.fetchSeg interviews).failedVideos := by
        unfold transcriptStage
        rw [if_pos hlen, hcr]
      rw [ht1, ht2]
      obtain ⟨hg1, hg2⟩ := geminiStage_sub w
        (fetchTranscripts w.fetchSeg interviews).failedVideos isPro
      have hcount := fetchTranscripts_counts w.fetchSeg interviews
      have hdisj := fetchTranscripts_disjoint w.fetchSeg interviews hnd
      refine ⟨by omega, ?_⟩
      intro id hid hmem
      rcases List.mem_map.mp hmem with ⟨t, ht, rfl⟩
      exact hdisj t.videoId hid (hg2 t ht)
  · have h0 : interviews = [] := List.length_eq_zero.mp (by omega)
    subst h0
    have ht1 : (transcriptStage w []).1 = [] := by
      unfold transcriptStage
      rw [if_neg hlen]
    have ht2 : (transcriptStage w []).2.1 = [] := by
      unfold transcriptStage
      rw [if_neg hlen]
    rw [ht1, ht2]
    obtain ⟨hg1, -⟩ := geminiStage_sub w [] isPro
    exact ⟨by simpa using hg1, by simp⟩

/-- Claim C2 (confirmed): in every run, the report's `transcriptsAnalyzed`
equals the number of accepted transcripts plus the number of model-watched
analyses, never exceeds `totalInterviewsFound`, and no video id is counted
both as an accepted transcript and as a model-watched analysis. -/
theorem C2_count_invariant (g ctx : String) (keys : JSKeys) (w : World) :
    (deepResearch g ctx keys w).report.transcriptsAnalyzed =
      (deepResearch g ctx keys w).trace.transcripts.length +
        (deepResearch g ctx keys w).trace.geminiAnalyzed.length ∧
    (deepResearch g ctx keys w).report.transcriptsAnalyzed ≤
      (deepResearch g ctx keys w).report.totalInterviewsFound ∧
    ∀ id, id ∈ (deepResearch g ctx keys w).trace.transcripts.map TRec.videoId →
      id ∉ (deepResearch g ctx keys w).trace.geminiAnalyzed.map TRec.videoId := by
  have hkey : ((ytStage g w (isProOf keys)).1.interviews.map Video.videoId).Nodup ∧
      (ytStage g w (isProOf keys)).1.totalInterviewsFound
        = (ytStage g w (isProOf keys)).1.interviews.length := by
    cases hyt : researchGuest (searchNameOf g w) w.ytKeyOk w.search (isProOf keys) with
    | ok r =>
      have h2 := researchGuest_ok hyt
      have hY : (ytStage g w (isProOf keys)).1 = r := by
        unfold ytStage
        rw [hyt]
      rw [hY]
      exact ⟨h2.2, h2.1⟩
    | error e =>
      have hY : (ytStage g w (isProOf keys)).1 = ⟨"", 0, []⟩ := by
        unfold ytStage
        rw [hyt]
      rw [hY]
      exact ⟨by simp, by simp⟩
  obtain ⟨hsc1, hsc2⟩ := stage_counts w (isProOf keys)
    (ytStage g w (isProOf keys)).1.interviews hkey.1
  refine ⟨rfl, ?_, ?_⟩
  · show (transcriptStage w (ytStage g w (isProOf keys)).1.interviews).1.length
        + (geminiStage w
            (transcriptStage w (ytStage g w (isProOf keys)).1.interviews).2.1
            (isProOf keys)).1.length
      ≤ (ytStage g w (isProOf keys)).1.totalInterviewsFound
    rw [hkey.2]
    exact hsc1
  · show ∀ id,
      id ∈ (transcriptStage w (ytStage g w (isProOf keys)).1.interviews).1.map
        TRec.videoId →
      id ∉ (geminiStage w
          (transcriptStage w (ytStage g w (isProOf keys)).1.interviews).2.1
          (isProOf keys)).1.map TRec.videoId
    exact hsc2

/-- Witness for C2 at a concrete run. -/
theorem C2_witness :
    (deepResearch "jane doe" "" noKeys crashWorld).report.transcriptsAnalyzed =
      (deepResearch "jane doe" "" noKeys crashWorld).trace.transcripts.length +
        (deepResearch "jane doe" "" noKeys crashWorld).trace.geminiAnalyzed.length ∧
    (deepResearch "jane doe" "" noKeys crashWorld).report.transcriptsAnalyzed ≤
      (deepResearch "jane doe" "" noKeys crashWorld).report.totalInterviewsFound ∧
    ∀ id, id ∈ (deepResearch "jane doe" ""
        noKeys crashWorld).trace.transcripts.map TRec.videoId →
      id ∉ (deepResearch "jane doe" ""
        noKeys crashWorld).trace.geminiAnalyzed.map TRec.videoId :=
  C2_count_invariant "jane doe" "" noKeys crashWorld
